import Mathlib

/-!
Verification development for the chess position / legal-move-generation library
(src/src/chess.hpp and src/src/chess.cpp).

Modelling conventions for the shallow embedding:
* C++ uint64_t bitboards are Nat values kept below 2^64; wherever the C++
  arithmetic can wrap (subtraction, left shift, multiplication) the embedding
  reduces modulo 2^64 explicitly, matching two's-complement wrap-around.
* C-array reads out of bounds (undefined behaviour in the source) are modelled
  as returning 0 (for bitboard tables) via List.getD, and List.set out of
  bounds is a no-op.  A shift by 64 or more (undefined behaviour in C++; the
  source reaches 1ULL << NO_SQ on one path) is modelled as producing 0, i.e.
  the mathematical shift reduced modulo 2^64.
* _BitScanForward64 on 0 (undefined behaviour) is modelled as returning 64.
* std::string is modelled as List Char.
-/

namespace Chess

/-! ## Bit primitives (chess.hpp, Bitboards section) -/

def M64 : Nat := 2 ^ 64

/-- All 64 bits set; the value 18446744073709551615ULL used by the source. -/
def FULL_BB : Nat := 2 ^ 64 - 1

/-- Reduce a value modulo 2^64, the wrap-around of C++ uint64_t. -/
def mask64 (x : Nat) : Nat := x % M64

/-- Bitwise complement on 64 bits (C++ operator~ on uint64_t). -/
def bnot64 (x : Nat) : Nat := FULL_BB ^^^ x

/-- Wrapping 64-bit subtraction (C++ uint64_t subtraction). -/
def sub64 (a b : Nat) : Nat := (a + M64 - b % M64) % M64

/-- 64-bit left shift with wrap-around (C++ << on uint64_t). -/
def shl64 (a n : Nat) : Nat := (a <<< n) % M64

/-- SQUARE_BB[sq] = 1 << sq; reads past the 64-entry array give 0. -/
def SQUARE_BB (sq : Nat) : Nat := if sq < 64 then 2 ^ sq else 0

def MASK_FILE : List Nat :=
  [0x101010101010101, 0x202020202020202, 0x404040404040404, 0x808080808080808,
   0x1010101010101010, 0x2020202020202020, 0x4040404040404040, 0x8080808080808080]

def MASK_RANK : List Nat :=
  [0xff, 0xff00, 0xff0000, 0xff000000,
   0xff00000000, 0xff0000000000, 0xff000000000000, 0xff00000000000000]

def MASK_DIAGONAL : List Nat :=
  [0x80, 0x8040, 0x804020,
   0x80402010, 0x8040201008, 0x804020100804,
   0x80402010080402, 0x8040201008040201, 0x4020100804020100,
   0x2010080402010000, 0x1008040201000000, 0x804020100000000,
   0x402010000000000, 0x201000000000000, 0x100000000000000]

def MASK_ANTI_DIAGONAL : List Nat :=
  [0x1, 0x102, 0x10204,
   0x1020408, 0x102040810, 0x10204081020,
   0x1020408102040, 0x102040810204080, 0x204081020408000,
   0x408102040800000, 0x810204080000000, 0x1020408000000000,
   0x2040800000000000, 0x4080000000000000, 0x8000000000000000]

/-- reverse: rotate the board 180 degrees (bit reversal by swap stages). -/
def reverse (bb0 : Nat) : Nat :=
  let bb1 := mask64 ((bb0 &&& 0x5555555555555555) <<< 1) ||| ((bb0 >>> 1) &&& 0x5555555555555555)
  let bb2 := mask64 ((bb1 &&& 0x3333333333333333) <<< 2) ||| ((bb1 >>> 2) &&& 0x3333333333333333)
  let bb3 := mask64 ((bb2 &&& 0x0f0f0f0f0f0f0f0f) <<< 4) ||| ((bb2 >>> 4) &&& 0x0f0f0f0f0f0f0f0f)
  let bb := mask64 ((bb3 &&& 0x00ff00ff00ff00ff) <<< 8) ||| ((bb3 >>> 8) &&& 0x00ff00ff00ff00ff)
  mask64 (bb <<< 48) ||| mask64 ((bb &&& 0xffff0000) <<< 16) ||| ((bb >>> 16) &&& 0xffff0000) ||| (bb >>> 48)

/-- bsf: index of the least significant set bit; modelled as 64 when bb = 0
(_BitScanForward64 leaves the result undefined there). -/
def bsf (bb : Nat) : Nat :=
  match (List.range 64).find? (fun i => bb.testBit i) with
  | some i => i
  | none => 64

/-- poplsb: the LSB index together with the bitboard with that bit cleared
(bb &= bb - 1, with uint64 wrap-around for bb = 0). -/
def poplsb (bb : Nat) : Nat × Nat := (bsf bb, bb &&& sub64 bb 1)

/-- popCount: the SWAR population count of the source, with 64-bit wrap. -/
def popCount (x0 : Nat) : Nat :=
  let x1 := sub64 x0 ((x0 >>> 1) &&& 0x5555555555555555)
  let x2 := (x1 &&& 0x3333333333333333) + ((x1 >>> 2) &&& 0x3333333333333333)
  let x3 := (x2 + (x2 >>> 4)) &&& 0x0f0f0f0f0f0f0f0f
  mask64 (x3 * 0x0101010101010101) >>> 56

def rank_of (sq : Nat) : Nat := sq >>> 3

def file_of (sq : Nat) : Nat := sq &&& 7

def diagonal_of (sq : Nat) : Nat := 7 + rank_of sq - file_of sq

def anti_diagonal_of (sq : Nat) : Nat := rank_of sq + file_of sq

/-- squareDistance: Chebyshev distance between two squares. -/
def squareDistance (a b : Nat) : Nat :=
  max ((file_of a : Int) - file_of b).natAbs ((rank_of a : Int) - rank_of b).natAbs

/-! ## Types (chess.hpp, Types section) -/

inductive Color where
  | White
  | Black
deriving DecidableEq

export Color (White Black)

/-- operator~ on Color (White <-> Black). -/
def flipColor : Color → Color
  | White => Black
  | Black => White

def colorIdx : Color → Nat
  | White => 0
  | Black => 1

inductive PieceType where
  | Pawn
  | Knight
  | Bishop
  | Rook
  | Queen
  | King
deriving DecidableEq

export PieceType (Pawn Knight Bishop Rook Queen King)

def ptIdx : PieceType → Nat
  | Pawn => 0
  | Knight => 1
  | Bishop => 2
  | Rook => 3
  | Queen => 4
  | King => 5

inductive Piece where
  | WhitePawn
  | WhiteKnight
  | WhiteBishop
  | WhiteRook
  | WhiteQueen
  | WhiteKing
  | BlackPawn
  | BlackKnight
  | BlackBishop
  | BlackRook
  | BlackQueen
  | BlackKing
  | None
deriving DecidableEq

def pieceIdx : Piece → Nat
  | .WhitePawn => 0
  | .WhiteKnight => 1
  | .WhiteBishop => 2
  | .WhiteRook => 3
  | .WhiteQueen => 4
  | .WhiteKing => 5
  | .BlackPawn => 6
  | .BlackKnight => 7
  | .BlackBishop => 8
  | .BlackRook => 9
  | .BlackQueen => 10
  | .BlackKing => 11
  | .None => 12

def pieceOfIdx : Nat → Piece
  | 0 => .WhitePawn
  | 1 => .WhiteKnight
  | 2 => .WhiteBishop
  | 3 => .WhiteRook
  | 4 => .WhiteQueen
  | 5 => .WhiteKing
  | 6 => .BlackPawn
  | 7 => .BlackKnight
  | 8 => .BlackBishop
  | 9 => .BlackRook
  | 10 => .BlackQueen
  | 11 => .BlackKing
  | _ => .None

/-- makePiece: Piece(6 * color + type). -/
def makePiece (t : PieceType) (c : Color) : Piece := pieceOfIdx (6 * colorIdx c + ptIdx t)

/-- NO_SQ sentinel (square 64). -/
def NO_SQ : Nat := 64

/-- Castling-rights bit masks. -/
def whiteKingSideCastling : Nat := 1
def whiteQueenSideCastling : Nat := 2
def blackKingSideCastling : Nat := 4
def blackQueenSideCastling : Nat := 8

/-! ## Moves (chess.hpp, Moves section)

The source packs a move into a uint32; the claims only use the extracted
fields, so the move is embedded as a structure holding exactly those fields. -/

structure Move where
  source : Nat
  target : Nat
  piece : Piece
  promoted : Piece
  capture : Bool
  doublePush : Bool
  enpassant : Bool
  castling : Bool
deriving DecidableEq

/-! ## Attack tables (chess.hpp, Move generation section) -/

def KNIGHT_ATTACKS_TABLE : List Nat :=
  [0x0000000000020400, 0x0000000000050800, 0x00000000000A1100, 0x0000000000142200,
   0x0000000000284400, 0x0000000000508800, 0x0000000000A01000, 0x0000000000402000,
   0x0000000002040004, 0x0000000005080008, 0x000000000A110011, 0x0000000014220022,
   0x0000000028440044, 0x0000000050880088, 0x00000000A0100010, 0x0000000040200020,
   0x0000000204000402, 0x0000000508000805, 0x0000000A1100110A, 0x0000001422002214,
   0x0000002844004428, 0x0000005088008850, 0x000000A0100010A0, 0x0000004020002040,
   0x0000020400040200, 0x0000050800080500, 0x00000A1100110A00, 0x0000142200221400,
   0x0000284400442800, 0x0000508800885000, 0x0000A0100010A000, 0x0000402000204000,
   0x0002040004020000, 0x0005080008050000, 0x000A1100110A0000, 0x0014220022140000,
   0x0028440044280000, 0x0050880088500000, 0x00A0100010A00000, 0x0040200020400000,
   0x0204000402000000, 0x0508000805000000, 0x0A1100110A000000, 0x1422002214000000,
   0x2844004428000000, 0x5088008850000000, 0xA0100010A0000000, 0x4020002040000000,
   0x0400040200000000, 0x0800080500000000, 0x1100110A00000000, 0x2200221400000000,
   0x4400442800000000, 0x8800885000000000, 0x100010A000000000, 0x2000204000000000,
   0x0004020000000000, 0x0008050000000000, 0x00110A0000000000, 0x0022140000000000,
   0x0044280000000000, 0x0088500000000000, 0x0010A00000000000, 0x0020400000000000]

def KING_ATTACKS_TABLE : List Nat :=
  [0x0000000000000302, 0x0000000000000705, 0x0000000000000E0A, 0x0000000000001C14,
   0x0000000000003828, 0x0000000000007050, 0x000000000000E0A0, 0x000000000000C040,
   0x0000000000030203, 0x0000000000070507, 0x00000000000E0A0E, 0x00000000001C141C,
   0x0000000000382838, 0x0000000000705070, 0x0000000000E0A0E0, 0x0000000000C040C0,
   0x0000000003020300, 0x0000000007050700, 0x000000000E0A0E00, 0x000000001C141C00,
   0x0000000038283800, 0x0000000070507000, 0x00000000E0A0E000, 0x00000000C040C000,
   0x0000000302030000, 0x0000000705070000, 0x0000000E0A0E0000, 0x0000001C141C0000,
   0x0000003828380000, 0x0000007050700000, 0x000000E0A0E00000, 0x000000C040C00000,
   0x0000030203000000, 0x0000070507000000, 0x00000E0A0E000000, 0x00001C141C000000,
   0x0000382838000000, 0x0000705070000000, 0x0000E0A0E0000000, 0x0000C040C0000000,
   0x0003020300000000, 0x0007050700000000, 0x000E0A0E00000000, 0x001C141C00000000,
   0x0038283800000000, 0x0070507000000000, 0x00E0A0E000000000, 0x00C040C000000000,
   0x0302030000000000, 0x0705070000000000, 0x0E0A0E0000000000, 0x1C141C0000000000,
   0x3828380000000000, 0x7050700000000000, 0xE0A0E00000000000, 0xC040C00000000000,
   0x0203000000000000, 0x0507000000000000, 0x0A0E000000000000, 0x141C000000000000,
   0x2838000000000000, 0x5070000000000000, 0xA0E0000000000000, 0x40C0000000000000]

def PAWN_ATTACKS_WHITE : List Nat :=
  [0x200, 0x500, 0xa00, 0x1400,
   0x2800, 0x5000, 0xa000, 0x4000,
   0x20000, 0x50000, 0xa0000, 0x140000,
   0x280000, 0x500000, 0xa00000, 0x400000,
   0x2000000, 0x5000000, 0xa000000, 0x14000000,
   0x28000000, 0x50000000, 0xa0000000, 0x40000000,
   0x200000000, 0x500000000, 0xa00000000, 0x1400000000,
   0x2800000000, 0x5000000000, 0xa000000000, 0x4000000000,
   0x20000000000, 0x50000000000, 0xa0000000000, 0x140000000000,
   0x280000000000, 0x500000000000, 0xa00000000000, 0x400000000000,
   0x2000000000000, 0x5000000000000, 0xa000000000000, 0x14000000000000,
   0x28000000000000, 0x50000000000000, 0xa0000000000000, 0x40000000000000,
   0x200000000000000, 0x500000000000000, 0xa00000000000000, 0x1400000000000000,
   0x2800000000000000, 0x5000000000000000, 0xa000000000000000, 0x4000000000000000,
   0x0, 0x0, 0x0, 0x0,
   0x0, 0x0, 0x0, 0x0]

def PAWN_ATTACKS_BLACK : List Nat :=
  [0x0, 0x0, 0x0, 0x0,
   0x0, 0x0, 0x0, 0x0,
   0x2, 0x5, 0xa, 0x14,
   0x28, 0x50, 0xa0, 0x40,
   0x200, 0x500, 0xa00, 0x1400,
   0x2800, 0x5000, 0xa000, 0x4000,
   0x20000, 0x50000, 0xa0000, 0x140000,
   0x280000, 0x500000, 0xa00000, 0x400000,
   0x2000000, 0x5000000, 0xa000000, 0x14000000,
   0x28000000, 0x50000000, 0xa0000000, 0x40000000,
   0x200000000, 0x500000000, 0xa00000000, 0x1400000000,
   0x2800000000, 0x5000000000, 0xa000000000, 0x4000000000,
   0x20000000000, 0x50000000000, 0xa0000000000, 0x140000000000,
   0x280000000000, 0x500000000000, 0xa00000000000, 0x400000000000,
   0x2000000000000, 0x5000000000000, 0xa000000000000, 0x14000000000000,
   0x28000000000000, 0x50000000000000, 0xa0000000000000, 0x40000000000000]

/-- PAWN_ATTACKS_TABLE[c][square]. -/
def GetPawnAttacks (square : Nat) (c : Color) : Nat :=
  match c with
  | White => PAWN_ATTACKS_WHITE.getD square 0
  | Black => PAWN_ATTACKS_BLACK.getD square 0

def GetKnightAttacks (square : Nat) : Nat := KNIGHT_ATTACKS_TABLE.getD square 0

def GetKingAttacks (square : Nat) : Nat := KING_ATTACKS_TABLE.getD square 0

/-- GetPawnPush: single-step push bitboard (SQUARE_BB[sq +- 8]).  For a black
pawn on the first rank sq - 8 is undefined behaviour in the source; Nat
subtraction truncates at 0 here. -/
def GetPawnPush (sq : Nat) (c : Color) : Nat :=
  match c with
  | White => SQUARE_BB (sq + 8)
  | Black => SQUARE_BB (sq - 8)

/-- Hyperbola Quintessence slider attack formula, with 64-bit wrap-around on
the two subtractions and doublings. -/
def hyp_quint (square : Nat) (occ : Nat) (mask : Nat) : Nat :=
  (sub64 (mask &&& occ) (mask64 (SQUARE_BB square * 2)) ^^^
    reverse (sub64 (reverse (mask &&& occ)) (mask64 (reverse (SQUARE_BB square) * 2)))) &&& mask

def GetBishopAttacks (square : Nat) (occ : Nat) : Nat :=
  hyp_quint square occ (MASK_DIAGONAL.getD (diagonal_of square) 0) |||
  hyp_quint square occ (MASK_ANTI_DIAGONAL.getD (anti_diagonal_of square) 0)

def GetRookAttacks (square : Nat) (occ : Nat) : Nat :=
  hyp_quint square occ (MASK_FILE.getD (file_of square) 0) |||
  hyp_quint square occ (MASK_RANK.getD (rank_of square) 0)

def GetQueenAttacks (square : Nat) (occ : Nat) : Nat :=
  GetBishopAttacks square occ ||| GetRookAttacks square occ

/-! ## Board (chess.hpp, Board section)

The Board structure merges the fields of the Board class in chess.hpp with the
three extra fields (halfMoveClock, fullMoveCounter, hashKey) that chess.cpp
uses; the header declaring those fields is not part of src, so they are
modelled from the spec (section 3, Position). -/

/-- State: snapshot pushed by makemove.  The first five fields are the struct
of chess.hpp.  Modelled from the spec: section 4.7 also lists the halfmove
clock and the hash key in the snapshot; the header holding that newer State is
not under src. -/
structure State where
  PiecesCopyBB : List Nat
  boardCopy : List Piece
  sideToMoveCopy : Color
  enpassantCopy : Nat
  castlingRightsCopy : Nat
  halfMoveCopy : Nat
  hashCopy : Nat
deriving DecidableEq

structure Board where
  PiecesBB : List Nat
  board : List Piece
  sideToMove : Color
  enpassantSquare : Nat
  castlingRights : Nat
  storeInfo : List State
  checkMask : Nat
  pinMaskHV : Nat
  pinMaskD : Nat
  doubleCheck : Nat
  halfMoveClock : Nat
  fullMoveCounter : Nat
  hashKey : Nat
deriving DecidableEq

/-- Read one of the twelve piece bitboards (PiecesBB[i]). -/
def bbGet (l : List Nat) (i : Nat) : Nat := l.getD i 0

/-- Update one of the twelve piece bitboards in place. -/
def bbUpd (l : List Nat) (i : Nat) (f : Nat → Nat) : List Nat := l.set i (f (bbGet l i))

def Board.Pawns (b : Board) (c : Color) : Nat := bbGet b.PiecesBB (colorIdx c * 6)

def Board.Knights (b : Board) (c : Color) : Nat := bbGet b.PiecesBB (colorIdx c * 6 + ptIdx Knight)

def Board.Bishops (b : Board) (c : Color) : Nat := bbGet b.PiecesBB (colorIdx c * 6 + ptIdx Bishop)

def Board.Rooks (b : Board) (c : Color) : Nat := bbGet b.PiecesBB (colorIdx c * 6 + ptIdx Rook)

def Board.Queens (b : Board) (c : Color) : Nat := bbGet b.PiecesBB (colorIdx c * 6 + ptIdx Queen)

def Board.Kings (b : Board) (c : Color) : Nat := bbGet b.PiecesBB (colorIdx c * 6 + ptIdx King)

def Board.allPieces (b : Board) (c : Color) : Nat :=
  b.Pawns c ||| b.Knights c ||| b.Bishops c ||| b.Rooks c ||| b.Queens c ||| b.Kings c

def Board.Enemy (b : Board) (c : Color) : Nat :=
  if c = White then b.allPieces Black else b.allPieces White

def Board.EnemyEmpty (b : Board) (c : Color) : Nat :=
  if c = White then bnot64 (b.allPieces White) else bnot64 (b.allPieces Black)

def Board.KingSq (b : Board) (c : Color) : Nat :=
  if c = White then bsf (b.Kings White) else bsf (b.Kings Black)

/-- placePiece: set the mailbox square and OR the square bit into the piece
bitboard. -/
def placePiece (b : Board) (piece : Piece) (sq : Nat) : Board :=
  { b with board := b.board.set sq piece
           PiecesBB := bbUpd b.PiecesBB (pieceIdx piece) (fun x => x ||| SQUARE_BB sq) }

/-- removePiece: clear the square bit from the piece bitboard and empty the
mailbox square. -/
def removePiece (b : Board) (piece : Piece) (sq : Nat) : Board :=
  { b with board := b.board.set sq .None
           PiecesBB := bbUpd b.PiecesBB (pieceIdx piece) (fun x => x &&& bnot64 (SQUARE_BB sq)) }

def Board.getPiece (b : Board) (sq : Nat) : Piece := b.board.getD sq .None

/-- isSquareAttacked (chess.hpp lines 1263-1272): pawn, knight, bishop, rook
and queen attack checks against the full occupancy.  Note that the source has
no king term. -/
def isSquareAttacked (b : Board) (sq : Nat) (color : Color) : Bool :=
  if sq ≠ NO_SQ then
    if GetPawnAttacks sq (flipColor color) &&& b.Pawns color ≠ 0 then true
    else if GetKnightAttacks sq &&& b.Knights color ≠ 0 then true
    else if GetBishopAttacks sq (b.allPieces White ||| b.allPieces Black) &&& b.Bishops color ≠ 0 then true
    else if GetRookAttacks sq (b.allPieces White ||| b.allPieces Black) &&& b.Rooks color ≠ 0 then true
    else if GetQueenAttacks sq (b.allPieces White ||| b.allPieces Black) &&& b.Queens color ≠ 0 then true
    else false
  else false

/-! ## Pin and check analysis (chess.hpp, doCheckmask / create_pins / init) -/

/-- doCheckmask: returns the check mask accumulator together with the
double-check counter. -/
def doCheckmask (b : Board) (c : Color) (sq : Nat) : Nat × Nat :=
  let pawn_attack := GetPawnAttacks sq c
  let knight_attack := GetKnightAttacks sq
  let bishop_attack := GetBishopAttacks sq (b.allPieces c ||| b.allPieces (flipColor c)) &&& bnot64 (b.allPieces c)
  let rook_attack := GetRookAttacks sq (b.allPieces c ||| b.allPieces (flipColor c)) &&& bnot64 (b.allPieces c)
  let pawn_mask := pawn_attack &&& b.Pawns (flipColor c)
  let knight_mask := knight_attack &&& b.Knights (flipColor c)
  let bishop_mask := bishop_attack &&& (b.Bishops (flipColor c) ||| b.Queens (flipColor c))
  let rook_mask := rook_attack &&& (b.Rooks (flipColor c) ||| b.Queens (flipColor c))
  let checks0 : Nat := 0
  let dc0 : Nat := 0
  let checks1 := if pawn_mask ≠ 0 then checks0 ||| pawn_mask else checks0
  let dc1 := if pawn_mask ≠ 0 then dc0 + 1 else dc0
  let checks2 := if knight_mask ≠ 0 then checks1 ||| knight_mask else checks1
  let dc2 := if knight_mask ≠ 0 then dc1 + 1 else dc1
  let checks3 := if bishop_mask ≠ 0 then
      checks2 ||| ((bishop_attack &&& GetBishopAttacks (bsf bishop_mask) (b.allPieces c)) ||| shl64 1 (bsf bishop_mask))
    else checks2
  let dc3 := if bishop_mask ≠ 0 then dc2 + 1 else dc2
  let checks4 := if rook_mask ≠ 0 then
      checks3 ||| ((rook_attack &&& GetRookAttacks (bsf rook_mask) (b.allPieces c)) ||| shl64 1 (bsf rook_mask))
    else checks3
  let dc4 := if rook_mask ≠ 0 then dc3 + 1 else dc3
  (checks4, dc4)

/-- One iteration round of the pinner loops in create_pins, with explicit
fuel (the loops pop one bit of the pinner mask per round). -/
def pinLoop (att : Nat) (kings : Nat) (own : Nat)
    (rookLike : Bool) : Nat → Nat → Nat → Nat
  | 0, _, acc => acc
  | fuel + 1, mask, acc =>
    if mask = 0 then acc
    else
      let index := (poplsb mask).1
      let mask1 := (poplsb mask).2
      let attFrom := if rookLike then GetRookAttacks index kings else GetBishopAttacks index kings
      let possible_pin := (att &&& attFrom) ||| shl64 1 index
      let acc1 := if popCount (possible_pin &&& own) = 1 then acc ||| possible_pin else acc
      pinLoop att kings own rookLike fuel mask1 acc1

/-- create_pins: returns (pinMaskHV, pinMaskD). -/
def create_pins (b : Board) (c : Color) (sq : Nat) : Nat × Nat :=
  let rook_attack := GetRookAttacks sq (b.allPieces (flipColor c))
  let bishop_attack := GetBishopAttacks sq (b.allPieces (flipColor c))
  let rook_mask := rook_attack &&& (b.Rooks (flipColor c) ||| b.Queens (flipColor c))
  let bishop_mask := bishop_attack &&& (b.Bishops (flipColor c) ||| b.Queens (flipColor c))
  let rook_pin := pinLoop rook_attack (b.Kings c) (b.allPieces c) true 64 rook_mask 0
  let bishop_pin := pinLoop bishop_attack (b.Kings c) (b.allPieces c) false 64 bishop_mask 0
  (rook_pin, bishop_pin)

/-- init: run doCheckmask and create_pins and store their results in the
board fields. -/
def Board.init (b : Board) (c : Color) (sq : Nat) : Board :=
  let mask := (doCheckmask b c sq).1
  let dc := (doCheckmask b c sq).2
  let pins := create_pins b c sq
  { b with checkMask := if mask ≠ 0 then mask else FULL_BB
           doubleCheck := dc
           pinMaskHV := pins.1
           pinMaskD := pins.2 }

/-! ## Per-piece legal move bitboards (chess.hpp lines 924-1050)

LegalPawnMoves and LegalKingMoves temporarily mutate the piece bitboards and
restore them before returning; the embedding threads the Board value through
and returns it, so that the mutation and its restoration are visible. -/

/-- The square of the pawn captured en passant: ep + offset, where offset is
-8 for White and +8 for Black (chess.hpp line 935). -/
def epBehind (c : Color) (e : Nat) : Nat := if c = White then e - 8 else e + 8

/-- The push/push2 ternary of LegalPawnMoves: the source updates push in
place on the double-push ranks and names that same value push2, else push2 is
0.  Returns (push, push2). -/
def pawnPushes (c : Color) (sq : Nat) (not_all push0 : Nat) : Nat × Nat :=
  if c = White ∧ rank_of sq = 1 then
    (push0 ||| (shl64 push0 8 &&& not_all), push0 ||| (shl64 push0 8 &&& not_all))
  else if c = Black ∧ rank_of sq = 6 then
    (push0 ||| ((push0 >>> 8) &&& not_all), push0 ||| ((push0 >>> 8) &&& not_all))
  else (push0, 0)

/-- LegalPawnMoves (chess.hpp lines 924-954). -/
def LegalPawnMoves (b : Board) (c : Color) (sq : Nat) : Nat × Board :=
  if b.doubleCheck = 2 then (0, b)
  else if b.pinMaskD &&& shl64 1 sq ≠ 0 then
    (GetPawnAttacks sq c &&& b.pinMaskD &&& b.checkMask &&& b.Enemy c, b)
  else
    let not_all := bnot64 (b.allPieces c) &&& bnot64 (b.allPieces (flipColor c))
    let attacks := GetPawnAttacks sq c
    let push0 := GetPawnPush sq c &&& not_all
    let push := (pawnPushes c sq not_all push0).1
    let push2 := (pawnPushes c sq not_all push0).2
    if b.pinMaskHV &&& shl64 1 sq ≠ 0 then ((push ||| push2) &&& b.pinMaskHV &&& b.checkMask, b)
    else
      if b.checkMask ≠ FULL_BB ∧ attacks &&& shl64 1 b.enpassantSquare ≠ 0 ∧
          b.checkMask &&& shl64 1 (epBehind c b.enpassantSquare) ≠ 0 then
        (GetPawnAttacks sq c &&& shl64 1 b.enpassantSquare, b)
      else if b.checkMask ≠ FULL_BB then
        (((GetPawnAttacks sq c &&& b.Enemy c) ||| push ||| push2) &&& b.checkMask, b)
      else
        let moves := ((attacks &&& b.Enemy c) ||| push ||| push2) &&& b.checkMask
        if b.enpassantSquare ≠ NO_SQ ∧ squareDistance sq b.enpassantSquare = 1 then
          if shl64 1 b.enpassantSquare &&& attacks ≠ 0 then
            let bbs1 := bbUpd b.PiecesBB (ptIdx Pawn + 6 * colorIdx c)
              (fun x => x &&& bnot64 (shl64 1 sq))
            let bbs2 := bbUpd bbs1 (ptIdx Pawn + 6 * colorIdx (flipColor c))
              (fun x => x &&& bnot64 (shl64 1 (epBehind c b.enpassantSquare)))
            let b1 := placePiece { b with PiecesBB := bbs2 } (makePiece Pawn c) b.enpassantSquare
            let moves1 := if ¬ isSquareAttacked b1 (b1.KingSq c) (flipColor c) then
                moves ||| shl64 1 b.enpassantSquare
              else moves
            let b2 := removePiece b1 (makePiece Pawn c) b.enpassantSquare
            let bbs3 := bbUpd b2.PiecesBB (ptIdx Pawn + 6 * colorIdx c)
              (fun x => x ||| shl64 1 sq)
            let bbs4 := bbUpd bbs3 (ptIdx Pawn + 6 * colorIdx (flipColor c))
              (fun x => x ||| shl64 1 (epBehind c b.enpassantSquare))
            (moves1, { b2 with PiecesBB := bbs4 })
          else (moves, b)
        else (moves, b)

def LegalKnightMoves (b : Board) (c : Color) (sq : Nat) : Nat :=
  if b.doubleCheck = 2 then 0
  else if (b.pinMaskHV ||| b.pinMaskD) &&& shl64 1 sq ≠ 0 then 0
  else GetKnightAttacks sq &&& b.EnemyEmpty c &&& b.checkMask

def LegalBishopMoves (b : Board) (c : Color) (sq : Nat) : Nat :=
  if b.doubleCheck = 2 then 0
  else if b.pinMaskHV &&& shl64 1 sq ≠ 0 then 0
  else if b.pinMaskD &&& shl64 1 sq ≠ 0 then
    GetBishopAttacks sq (b.allPieces White ||| b.allPieces Black) &&& b.EnemyEmpty c &&&
      b.checkMask &&& b.pinMaskD
  else
    GetBishopAttacks sq (b.allPieces White ||| b.allPieces Black) &&& b.EnemyEmpty c &&& b.checkMask

def LegalRookMoves (b : Board) (c : Color) (sq : Nat) : Nat :=
  if b.doubleCheck = 2 then 0
  else if b.pinMaskD &&& shl64 1 sq ≠ 0 then 0
  else if b.pinMaskHV &&& shl64 1 sq ≠ 0 then
    GetRookAttacks sq (b.allPieces White ||| b.allPieces Black) &&& b.EnemyEmpty c &&&
      b.checkMask &&& b.pinMaskHV
  else
    GetRookAttacks sq (b.allPieces White ||| b.allPieces Black) &&& b.EnemyEmpty c &&& b.checkMask

def LegalQueenMoves (b : Board) (c : Color) (sq : Nat) : Nat :=
  if b.doubleCheck = 2 then 0
  else LegalRookMoves b c sq ||| LegalBishopMoves b c sq

/-- The destination filter loop of LegalKingMoves: the king has already been
removed from its bitboard in b1. -/
def kingLoop (b1 : Board) (c : Color) : Nat → Nat → Nat → Nat
  | 0, _, acc => acc
  | fuel + 1, king_moves, acc =>
    if king_moves = 0 then acc
    else
      let index := bsf king_moves
      let acc1 := if isSquareAttacked b1 index (flipColor c) then acc else acc ||| shl64 1 index
      kingLoop b1 c fuel (poplsb king_moves).2 acc1

/-- LegalKingMoves (chess.hpp lines 984-1050), including the castling moves. -/
def LegalKingMoves (b : Board) (c : Color) (sq : Nat) : Nat × Board :=
  let king_moves := GetKingAttacks sq &&& b.EnemyEmpty c
  -- remove king
  let bbsR := bbUpd b.PiecesBB (ptIdx King + 6 * colorIdx c) (fun x => x &&& bnot64 (shl64 1 sq))
  let b1 := { b with PiecesBB := bbsR }
  let legal_king := kingLoop b1 c 64 king_moves 0
  -- restore king
  let bbsA := bbUpd b1.PiecesBB (ptIdx King + 6 * colorIdx c) (fun x => x ||| shl64 1 sq)
  let b2 := { b1 with PiecesBB := bbsA }
  let inCheck := FULL_BB ≠ b2.checkMask
  let castlingMoves : Nat :=
    if ¬ inCheck then
      let allBB := b2.allPieces White ||| b2.allPieces Black
      let wk := if b2.castlingRights &&& whiteKingSideCastling ≠ 0 ∧ b2.sideToMove = White ∧
          allBB &&& shl64 1 5 = 0 ∧ allBB &&& shl64 1 6 = 0 ∧
          shl64 1 7 &&& b2.Rooks White ≠ 0 ∧
          ¬ isSquareAttacked b2 5 (flipColor c) ∧ ¬ isSquareAttacked b2 6 (flipColor c) then
          shl64 1 6 else 0
      let wq := if b2.castlingRights &&& whiteQueenSideCastling ≠ 0 ∧ b2.sideToMove = White ∧
          allBB &&& shl64 1 3 = 0 ∧ allBB &&& shl64 1 2 = 0 ∧ allBB &&& shl64 1 1 = 0 ∧
          shl64 1 0 &&& b2.Rooks White ≠ 0 ∧
          ¬ isSquareAttacked b2 3 (flipColor c) ∧ ¬ isSquareAttacked b2 2 (flipColor c) then
          shl64 1 2 else 0
      let bk := if b2.castlingRights &&& blackKingSideCastling ≠ 0 ∧ b2.sideToMove = Black ∧
          allBB &&& shl64 1 61 = 0 ∧ allBB &&& shl64 1 62 = 0 ∧
          shl64 1 63 &&& b2.Rooks Black ≠ 0 ∧
          ¬ isSquareAttacked b2 61 (flipColor c) ∧ ¬ isSquareAttacked b2 62 (flipColor c) then
          shl64 1 62 else 0
      let bq := if b2.castlingRights &&& blackQueenSideCastling ≠ 0 ∧ b2.sideToMove = Black ∧
          allBB &&& shl64 1 59 = 0 ∧ allBB &&& shl64 1 58 = 0 ∧ allBB &&& shl64 1 57 = 0 ∧
          shl64 1 56 &&& b2.Rooks Black ≠ 0 ∧
          ¬ isSquareAttacked b2 59 (flipColor Black) ∧ ¬ isSquareAttacked b2 58 (flipColor Black) then
          shl64 1 58 else 0
      wk ||| wq ||| bk ||| bq
    else 0
  (legal_king ||| castlingMoves, b2)

/-! ## Move list builder (chess.hpp generateLegalMoves, lines 1053-1143) -/

/-- Move emission for one pawn destination (promotion expansion, double push
and en-passant flags). -/
def pawnEmit (b : Board) (source target : Nat) : List Move :=
  let side := b.sideToMove
  let capture := shl64 1 target &&& b.Enemy side ≠ 0
  if rank_of target = 7 ∨ rank_of target = 0 then
    [⟨source, target, makePiece Pawn side, makePiece Queen side, capture, false, false, false⟩,
     ⟨source, target, makePiece Pawn side, makePiece Rook side, capture, false, false, false⟩,
     ⟨source, target, makePiece Pawn side, makePiece Bishop side, capture, false, false, false⟩,
     ⟨source, target, makePiece Pawn side, makePiece Knight side, capture, false, false, false⟩]
  else if ((source : Int) - target).natAbs = 16 then
    [⟨source, target, makePiece Pawn side, .None, capture, true, false, false⟩]
  else if target = b.enpassantSquare then
    [⟨source, target, makePiece Pawn side, .None, true, false, true, false⟩]
  else
    [⟨source, target, makePiece Pawn side, .None, capture, false, false, false⟩]

/-- Move emission for one destination of a non-pawn, non-king piece. -/
def simpleEmit (b : Board) (t : PieceType) (source target : Nat) : List Move :=
  let side := b.sideToMove
  let capture := shl64 1 target &&& b.Enemy side ≠ 0
  [⟨source, target, makePiece t side, .None, capture, false, false, false⟩]

/-- Move emission for one king destination, with the castling-pattern test. -/
def kingEmit (b : Board) (source target : Nat) : List Move :=
  let side := b.sideToMove
  let capture := shl64 1 target &&& b.Enemy side ≠ 0
  if target = 6 ∧ source = 4 then [⟨source, target, makePiece King side, .None, false, false, false, true⟩]
  else if target = 2 ∧ source = 4 then [⟨source, target, makePiece King side, .None, false, false, false, true⟩]
  else if target = 62 ∧ source = 60 then [⟨source, target, makePiece King side, .None, false, false, false, true⟩]
  else if target = 58 ∧ source = 60 then [⟨source, target, makePiece King side, .None, false, false, false, true⟩]
  else [⟨source, target, makePiece King side, .None, capture, false, false, false⟩]

/-- Pop the destination bits of a legal-move bitboard in LSB order and emit. -/
def bitsLoop (f : Nat → List Move) : Nat → Nat → List Move → List Move
  | 0, _, acc => acc
  | fuel + 1, moves, acc =>
    if moves = 0 then acc
    else
      let target := (poplsb moves).1
      bitsLoop f fuel (poplsb moves).2 (acc ++ f target)

/-- The pawn source loop: it threads the board because LegalPawnMoves can
temporarily mutate and restore it. -/
def pawnSourceLoop : Nat → Board → Nat → List Move → List Move × Board
  | 0, b, _, acc => (acc, b)
  | fuel + 1, b, mask, acc =>
    if mask = 0 then (acc, b)
    else
      let source := (poplsb mask).1
      let res := LegalPawnMoves b b.sideToMove source
      let acc1 := bitsLoop (pawnEmit res.2 source) 64 res.1 acc
      pawnSourceLoop fuel res.2 (poplsb mask).2 acc1

/-- Source loop for knights, bishops, rooks and queens (no board mutation). -/
def pieceSourceLoop (b : Board) (gen : Nat → Nat) (t : PieceType) :
    Nat → Nat → List Move → List Move
  | 0, _, acc => acc
  | fuel + 1, mask, acc =>
    if mask = 0 then acc
    else
      let source := (poplsb mask).1
      let acc1 := bitsLoop (simpleEmit b t source) 64 (gen source) acc
      pieceSourceLoop b gen t fuel (poplsb mask).2 acc1

/-- generateLegalMoves: the full legal move list, together with the board
value after the generator has run (all temporary mutations undone). -/
def generateLegalMoves (b : Board) : List Move × Board :=
  let b0 := b.init b.sideToMove (b.KingSq b.sideToMove)
  let side := b0.sideToMove
  let pawn_mask := b0.Pawns side
  let knight_mask := b0.Knights side
  let bishop_mask := b0.Bishops side
  let rook_mask := b0.Rooks side
  let queen_mask := b0.Queens side
  let king_mask := b0.Kings side
  let stage :=
    if b0.doubleCheck < 2 then
      let resP := pawnSourceLoop 64 b0 pawn_mask []
      let b1 := resP.2
      let accN := pieceSourceLoop b1 (fun s => LegalKnightMoves b1 side s) Knight 64 knight_mask resP.1
      let accB := pieceSourceLoop b1 (fun s => LegalBishopMoves b1 side s) Bishop 64 bishop_mask accN
      let accR := pieceSourceLoop b1 (fun s => LegalRookMoves b1 side s) Rook 64 rook_mask accB
      let accQ := pieceSourceLoop b1 (fun s => LegalQueenMoves b1 side s) Queen 64 queen_mask accR
      (accQ, b1)
    else ([], b0)
  let source := (poplsb king_mask).1
  let resK := LegalKingMoves stage.2 side source
  let accK := bitsLoop (kingEmit resK.2 source) 64 resK.1 stage.1
  (accK, resK.2)

/-! ## Zobrist hash (chess.cpp lines 307-360)

The hash routine itself is in chess.cpp and embedded below; the constant
tables it consults live in the newer header that is not under src. -/

/-- Modelled from the spec: the fixed table of 781 64-bit Zobrist constants
(RANDOM_ARRAY).  The header with the literal values is not under src; an
arbitrary fixed 64-bit-valued table stands in, which the hash claims do not
depend on. -/
def RANDOM_ARRAY (i : Nat) : Nat :=
  mask64 ((i + 1) * 0x9E3779B97F4A7C15 ^^^ (i * i * 0xBF58476D1CE4E5B9 + 0x94D049BB133111EB))

/-- Modelled from the spec: hash_piece, the row index of a piece inside the
768 piece-square keys.  The header with the literal mapping is not under src;
the standard polyglot kind order stands in. -/
def hash_piece : Piece → Nat
  | .WhitePawn => 1
  | .WhiteKnight => 3
  | .WhiteBishop => 5
  | .WhiteRook => 7
  | .WhiteQueen => 9
  | .WhiteKing => 11
  | .BlackPawn => 0
  | .BlackKnight => 2
  | .BlackBishop => 4
  | .BlackRook => 6
  | .BlackQueen => 8
  | .BlackKing => 10
  | .None => 12

/-- Modelled from the spec: castlingKey, one precomputed key per 4-bit
castling-rights mask. -/
def castlingKey (m : Nat) : Nat :=
  (if m.testBit 0 then RANDOM_ARRAY 768 else 0) ^^^
  (if m.testBit 1 then RANDOM_ARRAY 769 else 0) ^^^
  (if m.testBit 2 then RANDOM_ARRAY 770 else 0) ^^^
  (if m.testBit 3 then RANDOM_ARRAY 771 else 0)

/-- The piece-key accumulation loop of Board::hash (XOR of the key of the
piece sitting on each occupied square). -/
def hashPieceLoop (mb : List Piece) : Nat → Nat → Nat → Nat
  | 0, _, acc => acc
  | fuel + 1, mask, acc =>
    if mask = 0 then acc
    else
      let sq := (poplsb mask).1
      hashPieceLoop mb fuel (poplsb mask).2
        (acc ^^^ RANDOM_ARRAY (64 * hash_piece (mb.getD sq .None) + sq))

/-- Board::hash (chess.cpp lines 307-344), computed from scratch: the value
the routine stores into hashKey. -/
def hashCalc (b : Board) : Nat :=
  let acc1 := hashPieceLoop b.board 64 (b.allPieces White) 0
  let acc2 := hashPieceLoop b.board 64 (b.allPieces Black) acc1
  let acc3 :=
    if b.enpassantSquare ≠ NO_SQ then
      let epMask := if rank_of b.enpassantSquare = 2 then GetPawnAttacks b.enpassantSquare White
        else GetPawnAttacks b.enpassantSquare Black
      let pawns := if rank_of b.enpassantSquare = 2 then b.Pawns Black else b.Pawns White
      if epMask &&& pawns ≠ 0 then acc2 ^^^ RANDOM_ARRAY (772 + file_of b.enpassantSquare) else acc2
    else acc2
  let acc4 := if b.sideToMove = White then acc3 ^^^ RANDOM_ARRAY 780 else acc3
  acc4 ^^^ castlingKey b.castlingRights

/-! ## Make / unmake (chess.hpp lines 1148-1260) -/

/-- Bitwise complement on the 8-bit castling-rights byte (uint8_t &= ~mask). -/
def bnot8 (x : Nat) : Nat := 255 ^^^ x

/-- placePiece acting on a (bitboards, mailbox) pair. -/
def ppPlace (pm : List Nat × List Piece) (piece : Piece) (sq : Nat) : List Nat × List Piece :=
  (bbUpd pm.1 (pieceIdx piece) (fun x => x ||| SQUARE_BB sq), pm.2.set sq piece)

/-- removePiece acting on a (bitboards, mailbox) pair. -/
def ppRemove (pm : List Nat × List Piece) (piece : Piece) (sq : Nat) : List Nat × List Piece :=
  (bbUpd pm.1 (pieceIdx piece) (fun x => x &&& bnot64 (SQUARE_BB sq)), pm.2.set sq .None)

/-- makemove (chess.hpp lines 1148-1250).  The snapshot also stores the
halfmove clock and the hash key, and the hash is recomputed from scratch at
the end; both are modelled from the spec (section 4.7), since the newer
makemove definition that chess.cpp dispatches to is not under src.  The rest
follows chess.hpp line by line (including the duplicated rook-capture
condition of lines 1205-1216). -/
def makemove (b : Board) (m : Move) : Board :=
  let st : State := ⟨b.PiecesBB, b.board, b.sideToMove, b.enpassantSquare, b.castlingRights,
    b.halfMoveClock, b.hashKey⟩
  let side := b.sideToMove
  let pm0 := (b.PiecesBB, b.board)
  -- castling: move the rook and clear both rights of the moving side
  let crpm1 : Nat × (List Nat × List Piece) :=
    if m.piece = makePiece King side then
      if m.source = 4 ∧ m.target = 6 ∧ b.castlingRights &&& whiteKingSideCastling ≠ 0 then
        (b.castlingRights &&& bnot8 whiteKingSideCastling &&& bnot8 whiteQueenSideCastling,
         ppPlace (ppRemove pm0 (makePiece Rook White) 7) (makePiece Rook White) 5)
      else if m.source = 60 ∧ m.target = 62 ∧ b.castlingRights &&& blackKingSideCastling ≠ 0 then
        (b.castlingRights &&& bnot8 blackKingSideCastling &&& bnot8 blackQueenSideCastling,
         ppPlace (ppRemove pm0 (makePiece Rook Black) 63) (makePiece Rook Black) 61)
      else if m.source = 4 ∧ m.target = 2 ∧ b.castlingRights &&& whiteQueenSideCastling ≠ 0 then
        (b.castlingRights &&& bnot8 whiteQueenSideCastling &&& bnot8 whiteKingSideCastling,
         ppPlace (ppRemove pm0 (makePiece Rook White) 0) (makePiece Rook White) 3)
      else if m.source = 60 ∧ m.target = 58 ∧ b.castlingRights &&& blackQueenSideCastling ≠ 0 then
        (b.castlingRights &&& bnot8 blackQueenSideCastling &&& bnot8 blackKingSideCastling,
         ppPlace (ppRemove pm0 (makePiece Rook Black) 56) (makePiece Rook Black) 59)
      else (b.castlingRights, pm0)
    else (b.castlingRights, pm0)
  -- a king move clears both rights of its color
  let cr2 := if m.piece = makePiece King side ∧ side = White then
      crpm1.1 &&& bnot8 whiteKingSideCastling &&& bnot8 whiteQueenSideCastling
    else crpm1.1
  let cr3 := if m.piece = makePiece King side ∧ side = Black then
      cr2 &&& bnot8 blackKingSideCastling &&& bnot8 blackQueenSideCastling
    else cr2
  -- rook move loses castle rights
  let cr4 := if m.piece = makePiece Rook White then
      (if m.source = 0 then cr3 &&& bnot8 whiteQueenSideCastling
       else if m.source = 7 then cr3 &&& bnot8 whiteKingSideCastling
       else cr3)
    else if m.piece = makePiece Rook Black then
      (if m.source = 56 then cr3 &&& bnot8 blackQueenSideCastling
       else if m.source = 63 then cr3 &&& bnot8 blackKingSideCastling
       else cr3)
    else cr3
  -- rook capture loses castle rights; the source repeats the same condition
  -- in the else-if, so the a8/h8 branch below is unreachable
  let rookCap := m.capture ∧ shl64 1 m.target &&& bbGet crpm1.2.1 (colorIdx (flipColor side) * 6 + ptIdx Rook) ≠ 0
  let cr5 := if rookCap then
      (if m.target = 0 then cr4 &&& bnot8 whiteQueenSideCastling
       else if m.target = 7 then cr4 &&& bnot8 whiteKingSideCastling
       else cr4)
    else if rookCap then
      (if m.target = 56 then cr4 &&& bnot8 blackQueenSideCastling
       else if m.target = 63 then cr4 &&& bnot8 blackKingSideCastling
       else cr4)
    else cr4
  -- enpassant capture: take the pawn one square behind the target
  let pm2 := if m.target = b.enpassantSquare ∧ m.enpassant then
      ppRemove crpm1.2 (makePiece Pawn (flipColor side))
        (if side = White then m.target - 8 else m.target + 8)
    else crpm1.2
  -- update enpassant square
  let ep1 := if m.piece = makePiece Pawn side ∧ ((m.source : Int) - m.target).natAbs = 16 then
      let crossed := if side = White then m.target - 8 else m.target + 8
      if GetPawnAttacks crossed side &&& bbGet pm2.1 (colorIdx (flipColor side) * 6) ≠ 0 then crossed
      else NO_SQ
    else NO_SQ
  -- capture
  let pm3 := if m.capture then ppRemove pm2 (pm2.2.getD m.target .None) m.target else pm2
  -- move the piece
  let pm4 := ppPlace (ppRemove pm3 m.piece m.source) m.piece m.target
  -- promotion
  let pm5 := if m.promoted ≠ Piece.None then ppPlace (ppRemove pm4 m.piece m.target) m.promoted m.target
    else pm4
  let res : Board :=
    { PiecesBB := pm5.1
      board := pm5.2
      sideToMove := flipColor side
      enpassantSquare := ep1
      castlingRights := cr5
      storeInfo := st :: b.storeInfo
      checkMask := b.checkMask
      pinMaskHV := b.pinMaskHV
      pinMaskD := b.pinMaskD
      doubleCheck := b.doubleCheck
      halfMoveClock := b.halfMoveClock
      fullMoveCounter := b.fullMoveCounter
      hashKey := 0 }
  { res with hashKey := hashCalc res }

/-- unmakemove (chess.hpp lines 1251-1260): pop the snapshot and restore its
fields (the halfmove clock and hash restore are the spec-modelled part of the
snapshot, section 4.7).  A pop on an empty stack is undefined behaviour in
C++ and modelled as the identity. -/
def unmakemove (b : Board) : Board :=
  match b.storeInfo with
  | [] => b
  | st :: rest =>
    { b with PiecesBB := st.PiecesCopyBB
             board := st.boardCopy
             sideToMove := st.sideToMoveCopy
             enpassantSquare := st.enpassantCopy
             castlingRights := st.castlingRightsCopy
             halfMoveClock := st.halfMoveCopy
             hashKey := st.hashCopy
             storeInfo := rest }

/-! ## FEN parsing (chess.cpp lines 165-255) -/

/-- The token splitter of parseFEN.  Faithful to the source: a token that is
still being accumulated when the input ends is dropped (the source only
pushes a token when it sees a space). -/
def tokenize : List Char → List Char → List (List Char)
  | [], _ => []
  | ch :: rest, acc =>
    if ch = ' ' then
      if acc ≠ [] then acc.reverse :: tokenize rest [] else tokenize rest []
    else tokenize rest (ch :: acc)

def charToPieceOpt : Char → Option Piece
  | 'P' => some .WhitePawn
  | 'N' => some .WhiteKnight
  | 'B' => some .WhiteBishop
  | 'R' => some .WhiteRook
  | 'Q' => some .WhiteQueen
  | 'K' => some .WhiteKing
  | 'p' => some .BlackPawn
  | 'n' => some .BlackKnight
  | 'b' => some .BlackBishop
  | 'r' => some .BlackRook
  | 'q' => some .BlackQueen
  | 'k' => some .BlackKing
  | _ => none

def isdigitChar (ch : Char) : Bool := 48 ≤ ch.toNat && ch.toNat ≤ 57

/-- The piece-placement loop of parseFEN. -/
def placeLoop : List Char → Nat → (List Nat × List Piece) → (List Nat × List Piece)
  | [], _, pm => pm
  | ch :: rest, square, pm =>
    match charToPieceOpt ch with
    | some p => placeLoop rest (square + 1) (ppPlace pm p square)
    | none =>
      if ch = '/' then placeLoop rest (square - 16) pm
      else if isdigitChar ch then placeLoop rest (square + (ch.toNat - 48)) pm
      else placeLoop rest square pm

/-- The castling-rights loop of parseFEN. -/
def castleLoop : List Char → Nat → Nat
  | [], cr => cr
  | ch :: rest, cr =>
    let cr1 := if ch = 'K' then cr ||| whiteKingSideCastling
      else if ch = 'Q' then cr ||| whiteQueenSideCastling
      else if ch = 'k' then cr ||| blackKingSideCastling
      else if ch = 'q' then cr ||| blackQueenSideCastling
      else cr
    castleLoop rest cr1

/-- parseFEN (chess.cpp lines 165-255).  Note that the source extracts only
the first four fields; the halfmove and fullmove fields of the FEN string are
never read, and the counters keep their reset values 0 and 1.  The analyzer
scratch fields are not reset by the source and are carried over. -/
def parseFEN (b : Board) (FEN : List Char) : Board :=
  let tokens := tokenize FEN []
  let pieces := if tokens.length ≥ 4 then tokens.getD 0 [] else []
  let color := if tokens.length ≥ 4 then tokens.getD 1 [] else []
  let castling := if tokens.length ≥ 4 then tokens.getD 2 [] else []
  let ep := if tokens.length ≥ 4 then tokens.getD 3 [] else []
  let pm := placeLoop pieces 56 (List.replicate 12 0, List.replicate 64 Piece.None)
  let side := if color = ['w'] then White else Black
  let epSq := if ep ≠ ['-'] then
      ((ep.getD 1 (Char.ofNat 0)).toNat - 49) * 8 + ((ep.getD 0 (Char.ofNat 0)).toNat - 97)
    else NO_SQ
  let cr := castleLoop castling 0
  let res : Board :=
    { PiecesBB := pm.1
      board := pm.2
      sideToMove := side
      enpassantSquare := epSq
      castlingRights := cr
      storeInfo := []
      checkMask := b.checkMask
      pinMaskHV := b.pinMaskHV
      pinMaskD := b.pinMaskD
      doubleCheck := b.doubleCheck
      halfMoveClock := 0
      fullMoveCounter := 1
      hashKey := b.hashKey }
  { res with hashKey := hashCalc res }

/-! ## Position predicates (chess.cpp lines 362-389) -/

/-- Modelled from the spec: is_check, the side's king square attacked by the
opposite color through the attack query of section 4.5.  The isCheck template
that chess.cpp dispatches to is declared in the newer header, which is not
under src. -/
def isCheck (b : Board) (c : Color) : Bool := isSquareAttacked b (b.KingSq c) (flipColor c)

/-- The count field of the move list (a uint8_t in the source, hence the
reduction modulo 256); legal_moves dispatches to generateLegalMoves. -/
def legalMovesCount (b : Board) : Nat := (generateLegalMoves b).1.length % 256

/-- isCheckmate (chess.cpp lines 369-376). -/
def isCheckmate (b : Board) : Bool :=
  if isCheck b b.sideToMove then (if legalMovesCount b = 0 then true else false) else false

/-- isStalemate (chess.cpp lines 378-389). -/
def isStalemate (b : Board) : Bool :=
  if isCheck b b.sideToMove then false
  else if legalMovesCount b = 0 then true else false

/-! ## Specification-side definitions

These follow the wording of the spec and of the claims, for comparison with
the source-derived definitions above. -/

/-- The attack predicate as the spec states it (section 4.5): some pawn,
knight, bishop, rook, queen or king of color c attacks sq under the full
occupancy.  Attackers of sq are found with the projection convention that the
spec itself uses in section 4.2 (cast the attack set from sq and intersect
with the enemy piece sets); the leaper tables are symmetric, so this matches
the piece-centric reading. -/
def attackedSpec (b : Board) (sq : Nat) (c : Color) : Bool :=
  let occ := b.allPieces White ||| b.allPieces Black
  decide (GetPawnAttacks sq (flipColor c) &&& b.Pawns c ≠ 0) ||
  decide (GetKnightAttacks sq &&& b.Knights c ≠ 0) ||
  decide (GetBishopAttacks sq occ &&& b.Bishops c ≠ 0) ||
  decide (GetRookAttacks sq occ &&& b.Rooks c ≠ 0) ||
  decide (GetQueenAttacks sq occ &&& b.Queens c ≠ 0) ||
  decide (GetKingAttacks sq &&& b.Kings c ≠ 0)

/-- Modelled from the spec (section 4.3, the en-passant guard sentence):
speculatively remove our pawn from sq and the enemy pawn from the square
behind ep, place a friendly pawn on ep, and test whether our king is
attacked.  The result is true when the king is NOT attacked, i.e. when the
en-passant capture is safe and must be kept. -/
def epSpeculativeSafe (b : Board) (c : Color) (sq ep : Nat) : Bool :=
  let behind := epBehind c ep
  let bbs1 := bbUpd b.PiecesBB (ptIdx Pawn + 6 * colorIdx c) (fun x => x &&& bnot64 (shl64 1 sq))
  let bbs2 := bbUpd bbs1 (ptIdx Pawn + 6 * colorIdx (flipColor c))
    (fun x => x &&& bnot64 (shl64 1 behind))
  let b1 := placePiece { b with PiecesBB := bbs2 } (makePiece Pawn c) ep
  ! isSquareAttacked b1 (b1.KingSq c) (flipColor c)

/-- The checkers of one class, written as the spec describes them in section
4.2: project the class attack set from the king square and intersect with the
enemy pieces of that class (queens count for both slider classes). -/
def pawnCheckers (b : Board) (c : Color) (sq : Nat) : Nat :=
  GetPawnAttacks sq c &&& b.Pawns (flipColor c)

def knightCheckers (b : Board) (c : Color) (sq : Nat) : Nat :=
  GetKnightAttacks sq &&& b.Knights (flipColor c)

def diagCheckers (b : Board) (c : Color) (sq : Nat) : Nat :=
  (GetBishopAttacks sq (b.allPieces c ||| b.allPieces (flipColor c)) &&& bnot64 (b.allPieces c)) &&&
    (b.Bishops (flipColor c) ||| b.Queens (flipColor c))

def orthoCheckers (b : Board) (c : Color) (sq : Nat) : Nat :=
  (GetRookAttacks sq (b.allPieces c ||| b.allPieces (flipColor c)) &&& bnot64 (b.allPieces c)) &&&
    (b.Rooks (flipColor c) ||| b.Queens (flipColor c))

/-- The number of non-empty checker classes among pawn, knight, diagonal
slider and orthogonal slider. -/
def numCheckerClasses (b : Board) (c : Color) (sq : Nat) : Nat :=
  (if pawnCheckers b c sq ≠ 0 then 1 else 0) +
  (if knightCheckers b c sq ≠ 0 then 1 else 0) +
  (if diagCheckers b c sq ≠ 0 then 1 else 0) +
  (if orthoCheckers b c sq ≠ 0 then 1 else 0)

/-! ## Concrete boards used by the counterexamples and witnesses -/

def emptyBoard : Board :=
  { PiecesBB := List.replicate 12 0
    board := List.replicate 64 Piece.None
    sideToMove := White
    enpassantSquare := NO_SQ
    castlingRights := 0
    storeInfo := []
    checkMask := FULL_BB
    pinMaskHV := 0
    pinMaskD := 0
    doubleCheck := 0
    halfMoveClock := 0
    fullMoveCounter := 1
    hashKey := 0 }

/-- Build a board by placing the listed pieces on the empty board. -/
def boardOf (ps : List (Piece × Nat)) (side : Color) (ep cr : Nat) : Board :=
  { ps.foldl (fun bb pr => placePiece bb pr.1 pr.2) emptyBoard with
    sideToMove := side, enpassantSquare := ep, castlingRights := cr }

/-- The occupancy facts about the en-passant square under which the
speculative en-passant mutation of LegalPawnMoves is exactly restorable:
either no ep square is set, or the ep square is a real, empty square, not
holding one of our pawns, with the captured enemy pawn standing behind it
(these are the board invariants of spec section 3). -/
def epRestoreOK (b : Board) (c : Color) : Prop :=
  b.enpassantSquare = NO_SQ ∨
    (b.enpassantSquare < 64 ∧
     b.board.getD b.enpassantSquare .None = .None ∧
     (b.Pawns c).testBit b.enpassantSquare = false ∧
     (b.Pawns (flipColor c)).testBit (epBehind c b.enpassantSquare) = true ∧
     epBehind c b.enpassantSquare < 64)

/-! ## Concrete positions used by the counterexamples and witnesses -/

/-- Two bare kings: white king a1, black king c3, white to move
(FEN 8/8/8/8/8/2k5/8/K7 w - - 0 1). -/
def bC1 : Board := boardOf [(.WhiteKing, 0), (.BlackKing, 18)] White NO_SQ 0

/-- The king move a1-b2 in bC1, as the generator emits it. -/
def mvC1 : Move := ⟨0, 9, .WhiteKing, .None, false, false, false, false⟩

/-- White king a1 and black king h8; probe square b2. -/
def bC2 : Board := boardOf [(.WhiteKing, 0), (.BlackKing, 63)] White NO_SQ 0

/-- White Ra4 and Ke1, black Ra8 and Ke8, black queen-side castling right
only (FEN r3k3/8/8/8/R7/8/8/4K3 w q - 0 1). -/
def bC4 : Board := boardOf [(.WhiteRook, 24), (.BlackRook, 56), (.WhiteKing, 4),
  (.BlackKing, 60)] White NO_SQ 8

/-- The capture Ra4xa8 in bC4, as the generator emits it. -/
def mvC4 : Move := ⟨24, 56, .WhiteRook, .None, true, false, false, false⟩

/-- White king a1 in double check from two black knights on b3 and c2
(black king a8). -/
def bC5 : Board := boardOf [(.WhiteKing, 0), (.BlackKnight, 17), (.BlackKnight, 10),
  (.BlackKing, 56)] White NO_SQ 0

/-- White Kc4 and Pd5; black Pe5 (which just double-pushed, ep square e6),
Bf7 and Kh8.  The white pawn is pinned diagonally along c4-d5-e6-f7, and the
en-passant capture d5xe6 moves along the pin, so it is legal. -/
def bC7raw : Board := boardOf [(.WhiteKing, 26), (.WhitePawn, 35), (.BlackPawn, 36),
  (.BlackBishop, 53), (.BlackKing, 63)] White 44 0

/-- bC7raw after the pin/check analyzer has run for White. -/
def bC7x : Board := bC7raw.init White (bC7raw.KingSq White)

/-- White Pb5 and Kh1; black Pa5 (just double-pushed, ep square a6) and Kh8:
a plain, unpinned en-passant situation. -/
def bC7w : Board := boardOf [(.WhitePawn, 33), (.BlackPawn, 32), (.WhiteKing, 7),
  (.BlackKing, 63)] White 40 0

/-- Black Kh8 mated by the white Qg7 defended by Rg1 (white Ka1). -/
def bMate : Board := boardOf [(.BlackKing, 63), (.WhiteQueen, 54), (.WhiteRook, 6),
  (.WhiteKing, 0)] Black NO_SQ 0

/-- Black Ka8 stalemated by the white Qb6 (white Kh1). -/
def bStale : Board := boardOf [(.BlackKing, 56), (.WhiteQueen, 41), (.WhiteKing, 7)] Black NO_SQ 0

/-- A FEN whose halfmove field is 42 and whose fullmove field is 13. -/
def fenC9 : List Char := "k7/8/8/8/8/8/8/K7 w - - 42 13".toList

/-- A position with a live en-passant square, for the frame-effect witness. -/
def bC10 : Board := boardOf [(.WhitePawn, 33), (.BlackPawn, 32), (.WhiteKing, 7),
  (.BlackKing, 63)] White 40 0

end Chess
namespace Chess

theorem getD_set_ne {α : Type} (l : List α) (i j : Nat) (a d : α) (h : i ≠ j) :
    (l.set i a).getD j d = l.getD j d := by
  induction l generalizing i j with
  | nil => simp
  | cons x t ih =>
    cases i with
    | zero => cases j with
      | zero => exact absurd rfl h
      | succ j => simp [List.set, List.getD]
    | succ i => cases j with
      | zero => simp [List.set, List.getD]
      | succ j => simpa [List.set, List.getD] using ih i j (by omega)

theorem getD_set_lt {α : Type} (l : List α) (i : Nat) (a d : α) (h : i < l.length) :
    (l.set i a).getD i d = a := by
  induction l generalizing i with
  | nil => simp at h
  | cons x t ih =>
    cases i with
    | zero => simp [List.set, List.getD]
    | succ i => simpa [List.set, List.getD] using ih i (by simpa using h)

theorem set_getD_cancel {α : Type} (l : List α) (i : Nat) (d : α) :
    l.set i (l.getD i d) = l := by
  induction l generalizing i with
  | nil => simp
  | cons x t ih =>
    cases i with
    | zero => simp [List.set, List.getD]
    | succ i => simpa [List.set, List.getD] using ih i

theorem set_eq_of_getD {α : Type} (l : List α) (i : Nat) (v : α) (h : l.getD i v = v) :
    l.set i v = l := by
  have h2 := set_getD_cancel l i v
  rwa [h] at h2

theorem list_eq_of_getD (l1 l2 : List Nat) (hlen : l1.length = l2.length)
    (h : ∀ i, l1.getD i 0 = l2.getD i 0) : l1 = l2 := by
  induction l1 generalizing l2 with
  | nil => cases l2 with
    | nil => rfl
    | cons y t2 => simp at hlen
  | cons x t1 ih =>
    cases l2 with
    | nil => simp at hlen
    | cons y t2 =>
      have h0 := h 0
      simp [List.getD] at h0
      have ht : t1 = t2 := ih t2 (by simpa using hlen) (fun i => by simpa [List.getD] using h (i + 1))
      rw [h0, ht]

theorem testBit_FULL (k : Nat) : FULL_BB.testBit k = decide (k < 64) := by
  unfold FULL_BB
  exact Nat.testBit_two_pow_sub_one 64 k

theorem testBit_bnot64 (x k : Nat) :
    (bnot64 x).testBit k = ((decide (k < 64)).xor (x.testBit k)) := by
  unfold bnot64
  rw [Nat.testBit_xor, testBit_FULL]

theorem testBit_ge_64 (x k : Nat) (hx : x < 2 ^ 64) (hk : 64 ≤ k) : x.testBit k = false :=
  Nat.testBit_lt_two_pow (lt_of_lt_of_le hx (Nat.pow_le_pow_right (by omega) hk))

theorem two_pow_lt_M64 (sq : Nat) (h : sq < 64) : 2 ^ sq < 2 ^ 64 :=
  Nat.pow_lt_pow_right (by omega) h

theorem shl64_one (sq : Nat) (h : sq < 64) : shl64 1 sq = 2 ^ sq := by
  unfold shl64 M64
  rw [Nat.shiftLeft_eq, one_mul]
  exact Nat.mod_eq_of_lt (two_pow_lt_M64 sq h)

theorem shl64_one_ge (sq : Nat) (h : 64 ≤ sq) : shl64 1 sq = 0 := by
  unfold shl64 M64
  rw [Nat.shiftLeft_eq, one_mul]
  exact Nat.mod_eq_zero_of_dvd (Nat.pow_dvd_pow 2 h)

theorem sqbb_eq (k : Nat) (h : k < 64) : SQUARE_BB k = 2 ^ k := by simp [SQUARE_BB, h]

theorem testBit_SQUARE_BB (m k : Nat) : (SQUARE_BB m).testBit k = decide (m < 64 ∧ k = m) := by
  by_cases hm : m < 64
  · by_cases hk : k = m
    · simp [SQUARE_BB, hm, hk, Nat.testBit_two_pow]
    · simp only [SQUARE_BB, if_pos hm, Nat.testBit_two_pow]
      simp [hk, hm]
      omega
  · simp [SQUARE_BB, hm]

theorem testBit_shl64_one (sq k : Nat) : (shl64 1 sq).testBit k = decide (sq < 64 ∧ k = sq) := by
  by_cases h : sq < 64
  · rw [shl64_one sq h]
    by_cases hk : k = sq
    · simp [hk, Nat.testBit_two_pow, h]
    · simp only [Nat.testBit_two_pow]
      simp [hk, h]
      omega
  · rw [shl64_one_ge sq (by omega)]
    simp [Nat.zero_testBit, h]

theorem land_FULL (x : Nat) (hx : x < 2 ^ 64) : x &&& FULL_BB = x := by
  apply Nat.eq_of_testBit_eq
  intro k
  rw [Nat.testBit_and, testBit_FULL]
  by_cases hk : k < 64
  · simp [hk]
  · simp [hk, testBit_ge_64 x k hx (by omega)]

theorem restore_two (E t : Nat) (hE : E < 2 ^ 64) (ht : t < 64) (hEt : E.testBit t = true) :
    (E &&& bnot64 (2 ^ t)) ||| 2 ^ t = E := by
  apply Nat.eq_of_testBit_eq
  intro k
  rw [Nat.testBit_or, Nat.testBit_and, testBit_bnot64]
  by_cases hk : k < 64
  · by_cases hkt : k = t
    · subst hkt
      simp [Nat.testBit_two_pow, hEt]
    · have : (2 ^ t).testBit k = false := by
        rw [Nat.testBit_two_pow]
        simp
        omega
      simp [this, hk, Bool.xor_false]
  · have h1 : (2 ^ t).testBit k = false := by
      rw [Nat.testBit_two_pow]
      simp
      omega
    simp [h1, hk, testBit_ge_64 E k hE (by omega)]

theorem restore_four (P s e : Nat) (hP : P < 2 ^ 64) (hs : s < 64) (he : e < 64)
    (hPs : P.testBit s = true) (hPe : P.testBit e = false) :
    ((((P &&& bnot64 (2 ^ s)) ||| 2 ^ e) &&& bnot64 (2 ^ e)) ||| 2 ^ s) = P := by
  apply Nat.eq_of_testBit_eq
  intro k
  rw [Nat.testBit_or, Nat.testBit_and, Nat.testBit_or, Nat.testBit_and,
    testBit_bnot64, testBit_bnot64]
  by_cases hk : k < 64
  · by_cases hks : k = s
    · subst hks
      simp [Nat.testBit_two_pow, hPs]
    · have hsk : (2 ^ s).testBit k = false := by
        rw [Nat.testBit_two_pow]
        simp
        omega
      by_cases hke : k = e
      · subst hke
        simp [Nat.testBit_two_pow, hPe, hsk, hk]
      · have hek : (2 ^ e).testBit k = false := by
          rw [Nat.testBit_two_pow]
          simp
          omega
        simp [hsk, hek, hk, Bool.xor_false]
  · have h1 : (2 ^ s).testBit k = false := by
      rw [Nat.testBit_two_pow]
      simp
      omega
    have h2 : (2 ^ e).testBit k = false := by
      rw [Nat.testBit_two_pow]
      simp
      omega
    simp [h1, h2, hk, testBit_ge_64 P k hP (by omega)]

theorem Board_ext (a b : Board)
    (h1 : a.PiecesBB = b.PiecesBB) (h2 : a.board = b.board)
    (h3 : a.sideToMove = b.sideToMove) (h4 : a.enpassantSquare = b.enpassantSquare)
    (h5 : a.castlingRights = b.castlingRights) (h6 : a.storeInfo = b.storeInfo)
    (h7 : a.checkMask = b.checkMask) (h8 : a.pinMaskHV = b.pinMaskHV)
    (h9 : a.pinMaskD = b.pinMaskD) (h10 : a.doubleCheck = b.doubleCheck)
    (h11 : a.halfMoveClock = b.halfMoveClock) (h12 : a.fullMoveCounter = b.fullMoveCounter)
    (h13 : a.hashKey = b.hashKey) : a = b := by
  cases a
  cases b
  simp_all

theorem bounded_getD (l : List Nat) (h : ∀ x ∈ l, x < 2 ^ 64) (i : Nat) :
    l.getD i 0 < 2 ^ 64 := by
  induction l generalizing i with
  | nil => simp [List.getD]
  | cons x t ih =>
    cases i with
    | zero => exact h x (by simp)
    | succ i => exact ih (fun y hy => h y (by simp [hy])) i

end Chess

namespace Chess

theorem mailbox_restore (l : List Piece) (i : Nat) (p : Piece)
    (h : l.getD i .None = .None) : (l.set i p).set i .None = l := by
  rw [List.set_set]
  exact set_eq_of_getD l i .None h

theorem pawnbb_chain_restore (l : List Nat) (iO iE sq ep behind : Nat)
    (hlen : l.length = 12)
    (hOE : iO ≠ iE) (hO : iO < 12) (hE : iE < 12)
    (hP64 : l.getD iO 0 < 2 ^ 64) (hE64 : l.getD iE 0 < 2 ^ 64)
    (hsq : sq < 64) (hep : ep < 64) (hbeh : behind < 64)
    (hPs : (l.getD iO 0).testBit sq = true)
    (hPe : (l.getD iO 0).testBit ep = false)
    (hEt : (l.getD iE 0).testBit behind = true) :
    (let l1 := l.set iO (l.getD iO 0 &&& bnot64 (shl64 1 sq))
     let l2 := l1.set iE (l1.getD iE 0 &&& bnot64 (shl64 1 behind))
     let l3 := l2.set iO (l2.getD iO 0 ||| SQUARE_BB ep)
     let l4 := l3.set iO (l3.getD iO 0 &&& bnot64 (SQUARE_BB ep))
     let l5 := l4.set iO (l4.getD iO 0 ||| shl64 1 sq)
     l5.set iE (l5.getD iE 0 ||| shl64 1 behind)) = l := by
  have hEO : iE ≠ iO := Ne.symm hOE
  apply list_eq_of_getD
  · simp [List.length_set]
  intro i
  by_cases hiO : i = iO
  · subst hiO
    simp only [getD_set_lt, getD_set_ne, List.length_set, hlen, hO, hE, hOE, hEO, ne_eq,
      not_false_eq_true]
    rw [shl64_one sq hsq, sqbb_eq ep hep]
    exact restore_four (l.getD i 0) sq ep hP64 hsq hep hPs hPe
  · by_cases hiE : i = iE
    · subst hiE
      simp only [getD_set_lt, getD_set_ne, List.length_set, hlen, hO, hE, hOE, hEO, ne_eq,
        not_false_eq_true]
      rw [shl64_one behind hbeh]
      exact restore_two (l.getD i 0) behind hE64 hbeh hEt
    · have hOi : iO ≠ i := fun h => hiO h.symm
      have hEi : iE ≠ i := fun h => hiE h.symm
      simp only [getD_set_ne, hOi, hEi, ne_eq, not_false_eq_true]

end Chess

namespace Chess

theorem LegalPawnMoves_board_eq (b : Board) (c : Color) (sq : Nat)
    (hlen : b.PiecesBB.length = 12)
    (hbound : ∀ x ∈ b.PiecesBB, x < 2 ^ 64)
    (hownP : (b.Pawns c).testBit sq = true)
    (hsq : sq < 64)
    (hep : b.enpassantSquare = NO_SQ ∨
      (b.enpassantSquare < 64 ∧
       b.board.getD b.enpassantSquare .None = .None ∧
       (b.Pawns c).testBit b.enpassantSquare = false ∧
       (b.Pawns (flipColor c)).testBit (epBehind c b.enpassantSquare) = true ∧
       epBehind c b.enpassantSquare < 64)) :
    (LegalPawnMoves b c sq).2 = b := by
  simp only [LegalPawnMoves]
  by_cases hA : b.doubleCheck = 2
  · rw [if_pos hA]
  · rw [if_neg hA]
    by_cases hB : b.pinMaskD &&& shl64 1 sq ≠ 0
    · rw [if_pos hB]
    · rw [if_neg hB]
      by_cases hC : b.pinMaskHV &&& shl64 1 sq ≠ 0
      · rw [if_pos hC]
      · rw [if_neg hC]
        by_cases hD : b.checkMask ≠ FULL_BB ∧
            GetPawnAttacks sq c &&& shl64 1 b.enpassantSquare ≠ 0 ∧
            b.checkMask &&& shl64 1 (epBehind c b.enpassantSquare) ≠ 0
        · rw [if_pos hD]
        · rw [if_neg hD]
          by_cases hE : b.checkMask ≠ FULL_BB
          · rw [if_pos hE]
          · rw [if_neg hE]
            by_cases hF : b.enpassantSquare ≠ NO_SQ ∧ squareDistance sq b.enpassantSquare = 1
            · rw [if_pos hF]
              by_cases hG : shl64 1 b.enpassantSquare &&& GetPawnAttacks sq c ≠ 0
              · rw [if_pos hG]
                rcases hep with hep0 | ⟨hep64, hmb, hPe, hBeh, hBeh64⟩
                · exact absurd hep0 hF.1
                have hpidx : pieceIdx (makePiece Pawn c) = ptIdx Pawn + 6 * colorIdx c := by
                  cases c <;> rfl
                have hOE : ptIdx Pawn + 6 * colorIdx c ≠ ptIdx Pawn + 6 * colorIdx (flipColor c) := by
                  cases c <;> simp [colorIdx, flipColor, ptIdx]
                have hO : ptIdx Pawn + 6 * colorIdx c < 12 := by
                  cases c <;> simp [colorIdx, ptIdx]
                have hE12 : ptIdx Pawn + 6 * colorIdx (flipColor c) < 12 := by
                  cases c <;> simp [colorIdx, flipColor, ptIdx]
                have hPawnsEq : b.Pawns c = b.PiecesBB.getD (ptIdx Pawn + 6 * colorIdx c) 0 := by
                  cases c <;> rfl
                have hPawnsEqE : b.Pawns (flipColor c) =
                    b.PiecesBB.getD (ptIdx Pawn + 6 * colorIdx (flipColor c)) 0 := by
                  cases c <;> rfl
                refine Board_ext _ _ ?hbb ?hmbx rfl rfl rfl rfl rfl rfl rfl rfl rfl rfl rfl
                case hbb =>
                  simp only [placePiece, removePiece, bbUpd, bbGet, hpidx]
                  exact pawnbb_chain_restore b.PiecesBB _ _ sq b.enpassantSquare
                    (epBehind c b.enpassantSquare) hlen hOE hO hE12
                    (bounded_getD b.PiecesBB hbound _) (bounded_getD b.PiecesBB hbound _)
                    hsq hep64 hBeh64 (hPawnsEq ▸ hownP) (hPawnsEq ▸ hPe) (hPawnsEqE ▸ hBeh)
                case hmbx =>
                  simp only [placePiece, removePiece]
                  exact mailbox_restore b.board b.enpassantSquare (makePiece Pawn c) hmb
              · rw [if_neg hG]
            · rw [if_neg hF]

end Chess

namespace Chess

theorem LegalKingMoves_board_eq (b : Board) (c : Color) (sq : Nat)
    (hlen : b.PiecesBB.length = 12)
    (hbound : ∀ x ∈ b.PiecesBB, x < 2 ^ 64)
    (hK : 64 ≤ sq ∨ (b.Kings c).testBit sq = true) :
    (LegalKingMoves b c sq).2 = b := by
  have hkidx : colorIdx c * 6 + ptIdx King = ptIdx King + 6 * colorIdx c := by cases c <;> rfl
  have hiK : ptIdx King + 6 * colorIdx c < 12 := by cases c <;> simp [colorIdx, ptIdx]
  have hKv : b.Kings c = b.PiecesBB.getD (ptIdx King + 6 * colorIdx c) 0 := by cases c <;> rfl
  refine Board_ext _ _ ?hbb rfl rfl rfl rfl rfl rfl rfl rfl rfl rfl rfl rfl
  case hbb =>
    simp only [LegalKingMoves, bbUpd, bbGet]
    rw [getD_set_lt _ _ _ _ (by omega), List.set_set]
    by_cases hsq : sq < 64
    · have hbit : (b.PiecesBB.getD (ptIdx King + 6 * colorIdx c) 0).testBit sq = true := by
        rcases hK with h | h
        · omega
        · rw [← hKv]
          exact h
      rw [shl64_one sq hsq,
        restore_two (b.PiecesBB.getD (ptIdx King + 6 * colorIdx c) 0) sq
          (bounded_getD b.PiecesBB hbound _) hsq hbit]
      exact set_getD_cancel _ _ _
    · rw [shl64_one_ge sq (by omega)]
      have hb0 : bnot64 0 = FULL_BB := by simp [bnot64]
      rw [hb0, land_FULL _ (bounded_getD b.PiecesBB hbound _), Nat.or_zero]
      exact set_getD_cancel _ _ _

theorem bsf_testBit (mask : Nat) (hm : mask ≠ 0) (hlt : mask < 2 ^ 64) :
    mask.testBit (bsf mask) = true := by
  unfold bsf
  cases hfind : (List.range 64).find? (fun i => mask.testBit i) with
  | some i =>
    have h := List.find?_some hfind
    simpa using h
  | none =>
    exfalso
    apply hm
    apply Nat.eq_of_testBit_eq
    intro i
    rw [Nat.zero_testBit]
    by_cases hi : i < 64
    · have := List.find?_eq_none.mp hfind i (List.mem_range.mpr hi)
      simpa using this
    · exact testBit_ge_64 mask i hlt (by omega)

theorem bsf_lt (mask : Nat) (hm : mask ≠ 0) (hlt : mask < 2 ^ 64) : bsf mask < 64 := by
  by_contra h
  have := bsf_testBit mask hm hlt
  rw [testBit_ge_64 mask (bsf mask) hlt (by omega)] at this
  exact Bool.false_ne_true this

theorem bsf_zero : bsf 0 = 64 := by decide

end Chess

namespace Chess

theorem pawnSourceLoop_board (b : Board)
    (hlen : b.PiecesBB.length = 12)
    (hbound : ∀ x ∈ b.PiecesBB, x < 2 ^ 64)
    (hep : b.enpassantSquare = NO_SQ ∨
      (b.enpassantSquare < 64 ∧
       b.board.getD b.enpassantSquare .None = .None ∧
       (b.Pawns b.sideToMove).testBit b.enpassantSquare = false ∧
       (b.Pawns (flipColor b.sideToMove)).testBit (epBehind b.sideToMove b.enpassantSquare) = true ∧
       epBehind b.sideToMove b.enpassantSquare < 64)) :
    ∀ (fuel mask : Nat) (acc : List Move),
      (∀ i, mask.testBit i = true → (b.Pawns b.sideToMove).testBit i = true) →
      (pawnSourceLoop fuel b mask acc).2 = b := by
  have hPawns64 : b.Pawns b.sideToMove < 2 ^ 64 := bounded_getD b.PiecesBB hbound _
  intro fuel
  induction fuel with
  | zero => intro mask acc hsub; rfl
  | succ fuel ih =>
    intro mask acc hsub
    by_cases hm : mask = 0
    · simp [pawnSourceLoop, hm]
    · have hmask_lt : mask < 2 ^ 64 := by
        apply Nat.lt_pow_two_of_testBit
        intro i hi
        cases hX : mask.testBit i with
        | false => rfl
        | true =>
          have h1 := hsub i hX
          rw [testBit_ge_64 _ i hPawns64 hi] at h1
          exact absurd h1 Bool.false_ne_true
      have hbit : mask.testBit (bsf mask) = true := bsf_testBit mask hm hmask_lt
      have hres : (LegalPawnMoves b b.sideToMove ((poplsb mask).1)).2 = b :=
        LegalPawnMoves_board_eq b b.sideToMove (poplsb mask).1 hlen hbound
          (hsub _ hbit) (bsf_lt mask hm hmask_lt) hep
      simp only [pawnSourceLoop]
      rw [if_neg hm]
      rw [hres]
      exact ih (poplsb mask).2 _ (fun i hi => hsub i (by
        have h2 : (mask &&& sub64 mask 1).testBit i = true := hi
        rw [Nat.testBit_and] at h2
        simp only [Bool.and_eq_true] at h2
        exact h2.1))

end Chess

namespace Chess

theorem init_PiecesBB (b : Board) (c : Color) (sq : Nat) : (b.init c sq).PiecesBB = b.PiecesBB := rfl

theorem init_mailbox (b : Board) (c : Color) (sq : Nat) : (b.init c sq).board = b.board := rfl

theorem init_side (b : Board) (c : Color) (sq : Nat) : (b.init c sq).sideToMove = b.sideToMove := rfl

theorem init_ep (b : Board) (c : Color) (sq : Nat) :
    (b.init c sq).enpassantSquare = b.enpassantSquare := rfl

theorem init_castle (b : Board) (c : Color) (sq : Nat) :
    (b.init c sq).castlingRights = b.castlingRights := rfl

theorem generateLegalMoves_board_eq (b : Board)
    (hlen : b.PiecesBB.length = 12)
    (hbound : ∀ x ∈ b.PiecesBB, x < 2 ^ 64)
    (hep : epRestoreOK b b.sideToMove) :
    (generateLegalMoves b).2 = b.init b.sideToMove (b.KingSq b.sideToMove) := by
  have hkingOK : ∀ bx : Board, bx.PiecesBB = b.PiecesBB →
      (LegalKingMoves bx (b.init b.sideToMove (b.KingSq b.sideToMove)).sideToMove
        ((poplsb ((b.init b.sideToMove (b.KingSq b.sideToMove)).Kings
          (b.init b.sideToMove (b.KingSq b.sideToMove)).sideToMove)).1)).2 = bx := by
    intro bx hbx
    apply LegalKingMoves_board_eq
    · rw [hbx]
      exact hlen
    · rw [hbx]
      exact hbound
    · by_cases hkm : ((b.init b.sideToMove (b.KingSq b.sideToMove)).Kings
          (b.init b.sideToMove (b.KingSq b.sideToMove)).sideToMove) = 0
      · left
        rw [hkm]
        decide
      · right
        have hK64 : ((b.init b.sideToMove (b.KingSq b.sideToMove)).Kings
            (b.init b.sideToMove (b.KingSq b.sideToMove)).sideToMove) < 2 ^ 64 :=
          bounded_getD b.PiecesBB hbound _
        have hbit := bsf_testBit _ hkm hK64
        have hbk : (bx.Kings (b.init b.sideToMove (b.KingSq b.sideToMove)).sideToMove) =
            ((b.init b.sideToMove (b.KingSq b.sideToMove)).Kings
              (b.init b.sideToMove (b.KingSq b.sideToMove)).sideToMove) := by
          simp only [Board.Kings, bbGet, hbx]
          rfl
        rw [hbk]
        exact hbit
  simp only [generateLegalMoves]
  by_cases hdc : (b.init b.sideToMove (b.KingSq b.sideToMove)).doubleCheck < 2
  · rw [if_pos hdc]
    have hpl : (pawnSourceLoop 64 (b.init b.sideToMove (b.KingSq b.sideToMove))
        ((b.init b.sideToMove (b.KingSq b.sideToMove)).Pawns
          (b.init b.sideToMove (b.KingSq b.sideToMove)).sideToMove) []).2 =
        b.init b.sideToMove (b.KingSq b.sideToMove) := by
      apply pawnSourceLoop_board
      · exact hlen
      · exact hbound
      · exact hep
      · intro i hi
        exact hi
    rw [hpl]
    exact hkingOK _ rfl
  · rw [if_neg hdc]
    exact hkingOK _ rfl

end Chess

namespace Chess

theorem pawnAtkW : ∀ sq, sq < 64 → ∀ ep, ep < 64 →
    (GetPawnAttacks sq White).testBit ep = true → ep % 8 ≠ sq % 8 := by decide

theorem pawnAtkB : ∀ sq, sq < 64 → ∀ ep, ep < 64 →
    (GetPawnAttacks sq Black).testBit ep = true → ep % 8 ≠ sq % 8 ∧ 8 ≤ sq := by decide

end Chess

namespace Chess

theorem pawnPush_and_testBit_false (c : Color) (sq na k : Nat)
    (hmod : k % 8 ≠ sq % 8) (hblack : c = Black → 8 ≤ sq) :
    (GetPawnPush sq c &&& na).testBit k = false := by
  rw [Nat.testBit_and]
  cases c with
  | White =>
    have h1 : (SQUARE_BB (sq + 8)).testBit k = false := by
      rw [testBit_SQUARE_BB]
      simp only [decide_eq_false_iff_not]
      rintro ⟨h2, h3⟩
      omega
    simp [GetPawnPush, h1]
  | Black =>
    have h8 : 8 ≤ sq := hblack rfl
    have h1 : (SQUARE_BB (sq - 8)).testBit k = false := by
      rw [testBit_SQUARE_BB]
      simp only [decide_eq_false_iff_not]
      rintro ⟨h2, h3⟩
      omega
    simp [GetPawnPush, h1]

theorem pawnPushes_testBit_false (c : Color) (sq na ep : Nat) (hep : ep < 64)
    (hmod : ep % 8 ≠ sq % 8) (hblack : c = Black → 8 ≤ sq) :
    ((pawnPushes c sq na (GetPawnPush sq c &&& na)).1.testBit ep = false) ∧
    ((pawnPushes c sq na (GetPawnPush sq c &&& na)).2.testBit ep = false) := by
  have f0 : (GetPawnPush sq c &&& na).testBit ep = false :=
    pawnPush_and_testBit_false c sq na ep hmod hblack
  have fW : ((shl64 (GetPawnPush sq c &&& na) 8 &&& na)).testBit ep = false := by
    rw [Nat.testBit_and]
    have h1 : (shl64 (GetPawnPush sq c &&& na) 8).testBit ep = false := by
      show (((GetPawnPush sq c &&& na) <<< 8) % 2 ^ 64).testBit ep = false
      rw [Nat.testBit_mod_two_pow, Nat.testBit_shiftLeft]
      by_cases h8 : 8 ≤ ep
      · have h2 : (GetPawnPush sq c &&& na).testBit (ep - 8) = false :=
          pawnPush_and_testBit_false c sq na (ep - 8) (by omega) hblack
        simp [h2]
      · simp [h8]
    simp [h1]
  have fB : (((GetPawnPush sq c &&& na) >>> 8 &&& na)).testBit ep = false := by
    rw [Nat.testBit_and]
    have h1 : ((GetPawnPush sq c &&& na) >>> 8).testBit ep = false := by
      rw [Nat.testBit_shiftRight]
      exact pawnPush_and_testBit_false c sq na (8 + ep) (by omega) hblack
    simp [h1]
  unfold pawnPushes
  split_ifs with h1 h2 <;>
    simp [Nat.testBit_or, f0, fW, fB, Nat.zero_testBit]

end Chess

namespace Chess

/-- Claim C7 (amended): whenever the side to move is not in double check, not
in check at all, the capturing pawn on sq is unpinned (both pin masks clear),
an en-passant square is set and adjacent and diagonally reachable by the pawn,
and the board satisfies the en-passant occupancy invariants, then the generated
pawn-move bitboard contains the en-passant target exactly when the speculative
king-safety test passes, and the board is restored exactly afterwards.  The
amendment against the original claim: the speculative test is only reached for
unpinned pawns not in check; a diagonally pinned pawn whose en-passant capture
stays on the pin never receives the test and its legal capture is omitted (see
the counterexample). -/
theorem C7_ep_guard_exact_when_unpinned_not_in_check (b : Board) (c : Color) (sq : Nat)
    (hdc : b.doubleCheck ≠ 2)
    (hpinD : b.pinMaskD &&& shl64 1 sq = 0)
    (hpinHV : b.pinMaskHV &&& shl64 1 sq = 0)
    (hnc : b.checkMask = FULL_BB)
    (hep64 : b.enpassantSquare < 64)
    (hdist : squareDistance sq b.enpassantSquare = 1)
    (hatt : (GetPawnAttacks sq c).testBit b.enpassantSquare = true)
    (hsq : sq < 64)
    (hen : (b.Enemy c).testBit b.enpassantSquare = false)
    (hlen : b.PiecesBB.length = 12)
    (hbound : ∀ x ∈ b.PiecesBB, x < 2 ^ 64)
    (hmb : b.board.getD b.enpassantSquare .None = .None)
    (hownP : (b.Pawns c).testBit sq = true)
    (hPe : (b.Pawns c).testBit b.enpassantSquare = false)
    (hBeh : (b.Pawns (flipColor c)).testBit (epBehind c b.enpassantSquare) = true)
    (hBeh64 : epBehind c b.enpassantSquare < 64) :
    (LegalPawnMoves b c sq).1.testBit b.enpassantSquare =
      epSpeculativeSafe b c sq b.enpassantSquare ∧
    (LegalPawnMoves b c sq).2 = b := by
  have hmod : b.enpassantSquare % 8 ≠ sq % 8 ∧ (c = Black → 8 ≤ sq) := by
    cases c with
    | White => exact ⟨pawnAtkW sq hsq b.enpassantSquare hep64 hatt, fun h => nomatch h⟩
    | Black =>
      have h := pawnAtkB sq hsq b.enpassantSquare hep64 hatt
      exact ⟨h.1, fun _ => h.2⟩
  constructor
  · simp only [LegalPawnMoves]
    rw [if_neg hdc]
    rw [if_neg (show ¬ b.pinMaskD &&& shl64 1 sq ≠ 0 by simp [hpinD])]
    rw [if_neg (show ¬ b.pinMaskHV &&& shl64 1 sq ≠ 0 by simp [hpinHV])]
    rw [if_neg (show ¬ (b.checkMask ≠ FULL_BB ∧
        GetPawnAttacks sq c &&& shl64 1 b.enpassantSquare ≠ 0 ∧
        b.checkMask &&& shl64 1 (epBehind c b.enpassantSquare) ≠ 0) from fun h => h.1 hnc)]
    rw [if_neg (show ¬ b.checkMask ≠ FULL_BB from fun h => h hnc)]
    rw [if_pos (show b.enpassantSquare ≠ NO_SQ ∧ squareDistance sq b.enpassantSquare = 1 from
      ⟨by unfold NO_SQ; omega, hdist⟩)]
    have hG : shl64 1 b.enpassantSquare &&& GetPawnAttacks sq c ≠ 0 := by
      intro h0
      have hb : (shl64 1 b.enpassantSquare &&& GetPawnAttacks sq c).testBit b.enpassantSquare = true := by
        rw [Nat.testBit_and, testBit_shl64_one]
        simp [hep64, hatt]
      rw [h0, Nat.zero_testBit] at hb
      exact Bool.false_ne_true hb
    rw [if_pos hG]
    simp only [epSpeculativeSafe]
    have hmoves : ((GetPawnAttacks sq c &&& b.Enemy c |||
        (pawnPushes c sq (bnot64 (b.allPieces c) &&& bnot64 (b.allPieces (flipColor c)))
          (GetPawnPush sq c &&& (bnot64 (b.allPieces c) &&& bnot64 (b.allPieces (flipColor c))))).1 |||
        (pawnPushes c sq (bnot64 (b.allPieces c) &&& bnot64 (b.allPieces (flipColor c)))
          (GetPawnPush sq c &&& (bnot64 (b.allPieces c) &&& bnot64 (b.allPieces (flipColor c))))).2) &&&
        b.checkMask).testBit b.enpassantSquare = false := by
      have hp := pawnPushes_testBit_false c sq
        (bnot64 (b.allPieces c) &&& bnot64 (b.allPieces (flipColor c))) b.enpassantSquare
        hep64 hmod.1 hmod.2
      rw [hnc, Nat.testBit_and, testBit_FULL, Nat.testBit_or, Nat.testBit_or, Nat.testBit_and]
      simp [hen, hp.1, hp.2]
    split
    next hA =>
      rw [Nat.testBit_or, hmoves, testBit_shl64_one]
      simp [hep64, hA]
    next hA =>
      rw [hmoves]
      rw [not_not] at hA
      simp [hA]
  · exact LegalPawnMoves_board_eq b c sq hlen hbound hownP hsq
      (Or.inr ⟨hep64, hmb, hPe, hBeh, hBeh64⟩)

end Chess

namespace Chess

/-- Claim C5 (amended): after the analyzer runs, the double-check counter
equals the number of NON-EMPTY CHECKER CLASSES (pawn, knight, diagonal slider,
orthogonal slider), not the number of distinct checking pieces; it is 0 exactly
when there is no checker of any class.  Two simultaneous checkers of the same
class (for example two knights) are counted once, refuting the original claim
(see the counterexample). -/
theorem C5_doubleCheck_eq_checker_classes (b : Board) (c : Color) (sq : Nat) :
    (b.init c sq).doubleCheck = numCheckerClasses b c sq ∧
    ((b.init c sq).doubleCheck = 0 ↔ pawnCheckers b c sq = 0 ∧ knightCheckers b c sq = 0 ∧
      diagCheckers b c sq = 0 ∧ orthoCheckers b c sq = 0) := by
  have h1 : (b.init c sq).doubleCheck = numCheckerClasses b c sq := by
    simp only [Board.init, doCheckmask, numCheckerClasses, pawnCheckers, knightCheckers,
      diagCheckers, orthoCheckers]
    split_ifs <;> omega
  refine ⟨h1, ?_⟩
  rw [h1]
  unfold numCheckerClasses
  split_ifs <;> simp_all <;> omega

/-- Claim C8: provided the legal-move count does not overflow the uint8 in
which the code accumulates it, isCheckmate holds iff the side to move is in
check and has no legal moves, and isStalemate holds iff the side to move is
not in check and has no legal moves.  isCheck and the legal-move dispatch are
modelled from the spec (their declarations live in the chess.cpp header,
absent from the repository). -/
theorem C8_checkmate_stalemate_characterization (b : Board) (h : (generateLegalMoves b).1.length < 256) :
    (isCheckmate b = true ↔ (isCheck b b.sideToMove = true ∧ (generateLegalMoves b).1 = [])) ∧
    (isStalemate b = true ↔ (isCheck b b.sideToMove = false ∧ (generateLegalMoves b).1 = [])) := by
  constructor
  · unfold isCheckmate legalMovesCount
    cases hc : isCheck b b.sideToMove
    · simp [hc]
    · simp [hc, Nat.mod_eq_of_lt h, List.length_eq_zero]
  · unfold isStalemate legalMovesCount
    cases hc : isCheck b b.sideToMove
    · simp [hc, Nat.mod_eq_of_lt h, List.length_eq_zero]
    · simp [hc]

theorem knightSymm : ∀ a, a < 64 → ∀ b, b < 64 →
    (GetKnightAttacks a).testBit b = (GetKnightAttacks b).testBit a := by decide

theorem kingSymm : ∀ a, a < 64 → ∀ b, b < 64 →
    (GetKingAttacks a).testBit b = (GetKingAttacks b).testBit a := by decide

theorem pawnSymm : ∀ a, a < 64 → ∀ b, b < 64 →
    (GetPawnAttacks a White).testBit b = (GetPawnAttacks b Black).testBit a := by decide

end Chess

namespace Chess

/-- Claim C1: refuted on a concrete reachable position (FEN
8/8/8/8/8/2k5/8/K7 w - - 0 1).  The generator emits the king move a1-b2 even
though after making it the white king on b2 stands adjacent to the black king
on c3: the internal attack query, lacking a king term, reports the landing
square safe, while the spec-side attack predicate (which includes king
attacks) reports it attacked.  So not every generated move leaves the own king
unattacked. -/
theorem C1_illegal_king_adjacency :
    mvC1 ∈ (generateLegalMoves bC1).1 ∧
    isSquareAttacked (makemove bC1 mvC1) ((makemove bC1 mvC1).KingSq White) Black = false ∧
    attackedSpec (makemove bC1 mvC1) ((makemove bC1 mvC1).KingSq White) Black = true := by
  decide

/-- Claim C2: refuted.  With the white king on a1 (and only kings on the
board), isSquareAttacked reports square b2 NOT attacked by White although the
white king attacks it: the implementation sums pawn, knight, bishop, rook and
queen attack terms but omits the king term, diverging from the spec-side
predicate attackedSpec which includes it. -/
theorem C2_attack_query_omits_king :
    isSquareAttacked bC2 9 White = false ∧ attackedSpec bC2 9 White = true := by
  decide

/-- Claim C3: confirmed.  For every board and every move, makemove followed by
unmakemove restores the entire board structure bit for bit: the twelve piece
bitboards, the mailbox, the side to move, the en-passant square, the castling
rights, the halfmove clock and the hash key (the two last are snapshot fields
modelled from the spec, the chess.cpp header being absent from the
repository).  makemove pushes a full State snapshot before mutating, and
unmakemove pops it and writes every component back, so the round trip is a
definitional identity. -/
theorem C3_make_unmake_roundtrip (b : Board) (m : Move) :
    unmakemove (makemove b m) = b := rfl

/-- Claim C4: refuted on the capture Ra4xa8.  Black has only the queen-side
castling right (bit 8); White captures the black rook standing on a8, yet the
resulting castling rights still contain the black queen-side bit.  In makemove
the branch meant to clear rights for captures on a8/h8 repeats the a1/h1
condition in its else-if, so it is dead code and rook captures on the eighth
rank never clear the corresponding rights. -/
theorem C4_corner_rook_capture_rights_bug :
    mvC4 ∈ (generateLegalMoves bC4).1 ∧
    (makemove bC4 mvC4).castlingRights &&& blackQueenSideCastling ≠ 0 := by
  decide

/-- Counterexample to the original claim C5: the white king on a1 is checked
simultaneously by two distinct black knights (b3 and c2), so the knight
checker class holds two set bits, yet the analyzer leaves the double-check
counter at 1, because each checker CLASS increments the counter at most
once. -/
theorem C5_two_same_class_checkers_counterexample :
    popCount (knightCheckers bC5 White (bC5.KingSq White)) = 2 ∧
    (bC5.init White (bC5.KingSq White)).doubleCheck = 1 := by
  decide

/-- Claim C6: confirmed.  After every makemove, and after FEN parsing, the
stored hash key equals the Zobrist hash recomputed from scratch on the
resulting position, because both functions end by overwriting the key with
hashCalc of the position they produce.  The Zobrist constants, the piece-key
indexing and the castling key are modelled from the spec, the chess.cpp
header that declares them being absent from the repository. -/
theorem C6_hash_matches_recomputation (b : Board) (m : Move) (fen : List Char) :
    (makemove b m).hashKey = hashCalc (makemove b m) ∧
    (parseFEN b fen).hashKey = hashCalc (parseFEN b fen) :=
  ⟨rfl, rfl⟩

/-- Counterexample to the original claim C7: a diagonally pinned white pawn
(Kc4, Pd5 pinned by Bf7, black pawn e5 having just double-pushed, ep square
e6).  The en-passant capture d5xe6 stays on the pin diagonal, so it is legal
and the speculative king-safety test itself reports the king safe; yet the
generator never reaches the test for pinned pawns and omits the capture. -/
theorem C7_pinned_ep_counterexample :
    (LegalPawnMoves bC7x White 35).1.testBit 44 = false ∧
    epSpeculativeSafe bC7x White 35 44 = true := by
  decide

/-- Witness for C7: a plain unpinned en-passant position (white Pb5, black
Pa5 just double-pushed, ep square a6) at which every hypothesis of the claim
theorem holds by computation. -/
theorem C7_ep_guard_witness :
    (LegalPawnMoves bC7w White 33).1.testBit bC7w.enpassantSquare =
      epSpeculativeSafe bC7w White 33 bC7w.enpassantSquare ∧
    (LegalPawnMoves bC7w White 33).2 = bC7w :=
  C7_ep_guard_exact_when_unpinned_not_in_check bC7w White 33 (by decide) (by decide)
    (by decide) (by decide) (by decide) (by decide) (by decide) (by decide) (by decide)
    (by decide) (by decide) (by decide) (by decide) (by decide) (by decide) (by decide)

/-- Witness for C8: the characterization instantiated at a concrete mated
position (black Kh8 against Qg7 defended by Rg1), whose move count is
computed to be under 256. -/
theorem C8_checkmate_stalemate_witness :
    (isCheckmate bMate = true ↔
      (isCheck bMate bMate.sideToMove = true ∧ (generateLegalMoves bMate).1 = [])) ∧
    (isStalemate bMate = true ↔
      (isCheck bMate bMate.sideToMove = false ∧ (generateLegalMoves bMate).1 = [])) :=
  C8_checkmate_stalemate_characterization bMate (by decide)

/-- Claim C9 (amended): parseFEN NEVER reads the halfmove and fullmove fields
of the FEN string: for every input it sets the halfmove clock to 0 and the
fullmove counter to 1 by literal assignment, tokenizing only the first four
fields.  The original claim, that fields 5 and 6 are honoured when present,
is refuted by the counterexample. -/
theorem C9_parse_counters_constant (b : Board) (fen : List Char) :
    (parseFEN b fen).halfMoveClock = 0 ∧ (parseFEN b fen).fullMoveCounter = 1 :=
  ⟨rfl, rfl⟩

/-- Counterexample to the original claim C9: a FEN whose halfmove field is 42
and fullmove field is 13 parses to halfmove clock 0 and fullmove counter 1. -/
theorem C9_halfmove_fields_ignored_counterexample :
    (parseFEN emptyBoard fenC9).halfMoveClock ≠ 42 ∧
    (parseFEN emptyBoard fenC9).fullMoveCounter ≠ 13 := by
  decide

/-- Claim C10: confirmed.  On any well-formed board (twelve bitboards, each
under 2 to the 64, and the en-passant occupancy invariants), the board
returned by the generator has the same piece bitboards, mailbox, side to
move, en-passant square and castling rights as the input: the speculative
en-passant mutation inside pawn generation and the king removal inside king
generation are both fully undone (only the analyzer scratch fields checkMask,
pin masks and doubleCheck are recomputed, as on entry to every call). -/
theorem C10_movegen_preserves_position (b : Board)
    (hlen : b.PiecesBB.length = 12)
    (hbound : ∀ x ∈ b.PiecesBB, x < 2 ^ 64)
    (hep : epRestoreOK b b.sideToMove) :
    (generateLegalMoves b).2.PiecesBB = b.PiecesBB ∧
    (generateLegalMoves b).2.board = b.board ∧
    (generateLegalMoves b).2.sideToMove = b.sideToMove ∧
    (generateLegalMoves b).2.enpassantSquare = b.enpassantSquare ∧
    (generateLegalMoves b).2.castlingRights = b.castlingRights := by
  rw [generateLegalMoves_board_eq b hlen hbound hep]
  exact ⟨init_PiecesBB b b.sideToMove (b.KingSq b.sideToMove),
    init_mailbox b b.sideToMove (b.KingSq b.sideToMove),
    init_side b b.sideToMove (b.KingSq b.sideToMove),
    init_ep b b.sideToMove (b.KingSq b.sideToMove),
    init_castle b b.sideToMove (b.KingSq b.sideToMove)⟩

/-- Witness for C10: the preservation theorem instantiated at a concrete
position with a live en-passant square, every hypothesis discharged by
computation. -/
theorem C10_movegen_preserves_witness :
    (generateLegalMoves bC10).2.PiecesBB = bC10.PiecesBB ∧
    (generateLegalMoves bC10).2.board = bC10.board ∧
    (generateLegalMoves bC10).2.sideToMove = bC10.sideToMove ∧
    (generateLegalMoves bC10).2.enpassantSquare = bC10.enpassantSquare ∧
    (generateLegalMoves bC10).2.castlingRights = bC10.castlingRights :=
  C10_movegen_preserves_position bC10 (by decide) (by decide)
    (Or.inr ⟨by decide, by decide, by decide, by decide, by decide⟩)

end Chess
